import Mathlib

/-!
Verification of the data-acquisition layer of the `code_review_buddy`
repository (`src/github_client.py`) against its natural-language
specification.  The Python source is shallowly embedded: pure helpers
become Lean functions, the stateful retrying fetcher becomes a function
threading an explicit cache slot, a clock stream and a list of network
responses, and fallible code returns `Except`.  Real-valued timestamps
and durations are modelled as exact rationals.
-/

namespace GithubClient

/-! ## Module-level constants (from the top of `github_client.py`) -/

def GITHUB_MAX_RETRIES : Nat := 3

def DEFAULT_RETRY_BACKOFF_SECONDS : Rat := 1 / 2

def DEFAULT_MUTABLE_TTL_SECONDS : Rat := 60

def DEFAULT_BRANCH_CONTENT_TTL_SECONDS : Rat := 120

def DEFAULT_IMMUTABLE_CONTENT_TTL_SECONDS : Rat := 60 * 60 * 24 * 30

/-! ## Basic data model -/

/-- `CachePolicy` dataclass: how a response is treated after caching. -/
structure CachePolicy where
  ttl_seconds : Option Rat
  immutable : Bool
deriving DecidableEq, Repr

/-- `CachedHttpResponse` dataclass: cached payload plus revalidation metadata.
Bodies are byte sequences, modelled as lists of byte values. -/
structure CachedHttpResponse where
  status_code : Nat
  body : List Nat
  etag : Option String
  last_modified : Option String
  fetched_at : Rat
  expires_at : Option Rat
  immutable : Bool
deriving DecidableEq, Repr

/-! ## String helpers shared by the URL model

`urlsplit` / `parse_qs` from Python's `urllib.parse` are embedded below,
restricted to the behaviours `policy_for_endpoint` exercises: scheme and
netloc stripping, fragment and query splitting, `&`-separated field
parsing, `+`-to-space and percent decoding.  Percent decoding is modelled
bytewise (each `%XX` yields the character with that code); multi-byte
UTF-8 recombination is not modelled, which cannot change any membership
test against the ASCII commit-id alphabet used by the policy. -/

/-- Split a character list at the first occurrence of `c`; the second
component is `none` when `c` does not occur. -/
def splitAtFirst (c : Char) : List Char → List Char × Option (List Char)
  | [] => ([], none)
  | x :: xs =>
    if x = c then ([], some xs)
    else
      let r := splitAtFirst c xs
      (x :: r.1, r.2)

/-- Characters permitted in a URL scheme (`urllib.parse.scheme_chars`). -/
def schemeChar (c : Char) : Bool :=
  c.isAlpha || c.isDigit || c = '+' || c = '-' || c = '.'

/-- Strip a leading `scheme:` as `urlsplit` does: the prefix before the
first `:` must be nonempty, start with a letter, and consist of scheme
characters. -/
def stripScheme (l : List Char) : List Char :=
  match splitAtFirst ':' l with
  | (before, some after) =>
    match before with
    | [] => l
    | c0 :: rest =>
      if c0.isAlpha && (c0 :: rest).all schemeChar then after else l
  | (_, none) => l

/-- Strip a leading `//netloc` as `urlsplit` does: the netloc extends to
the first of `/`, `?`, `#`. -/
def stripNetloc (l : List Char) : List Char :=
  match l with
  | '/' :: '/' :: rest => rest.dropWhile (fun c => c ≠ '/' && c ≠ '?' && c ≠ '#')
  | _ => l

/-- Model of `urlsplit(endpoint)` restricted to the path and query
components (scheme, netloc and fragment are split off and discarded). -/
def urlsplitPathQuery (s : String) : String × String :=
  let l := stripNetloc (stripScheme s.data)
  let noFragment := (splitAtFirst '#' l).1
  match splitAtFirst '?' noFragment with
  | (p, some q) => (⟨p⟩, ⟨q⟩)
  | (p, none) => (⟨p⟩, "")

/-- Hexadecimal value of a character, for percent decoding. -/
def hexVal (c : Char) : Option Nat :=
  let n := c.toNat
  if 48 ≤ n ∧ n ≤ 57 then some (n - 48)
  else if 97 ≤ n ∧ n ≤ 102 then some (n - 87)
  else if 65 ≤ n ∧ n ≤ 70 then some (n - 55)
  else none

/-- Bytewise model of `urllib.parse.unquote`: a `%` followed by two hex
digits decodes to that byte value; an invalid escape is kept literally. -/
def unquoteChars : List Char → List Char
  | [] => []
  | '%' :: a :: b :: rest =>
    match hexVal a, hexVal b with
    | some x, some y => Char.ofNat (16 * x + y) :: unquoteChars rest
    | _, _ => '%' :: unquoteChars (a :: b :: rest)
  | c :: rest => c :: unquoteChars rest

/-- Decode one query-string component: `+` becomes space, then percent
sequences are decoded (`parse_qsl` behaviour). -/
def decodeQsComponent (l : List Char) : String :=
  ⟨unquoteChars (l.map (fun c => if c = '+' then ' ' else c))⟩

/-- Split a character list on every occurrence of `c` (like `str.split`). -/
def splitOnChar (c : Char) : List Char → List (List Char)
  | [] => [[]]
  | x :: xs =>
    if x = c then [] :: splitOnChar c xs
    else
      match splitOnChar c xs with
      | [] => [[x]]
      | g :: gs => (x :: g) :: gs

/-- Walk the `&`-separated fields of a query string, returning the first
value bound to `name` (model of `parse_qs(query).get(name)` followed by
taking element 0).  Per `parse_qsl` with default arguments: empty fields
are skipped, fields without `=` are skipped, fields with an empty raw
value are skipped, and names and values are decoded. -/
def qsFirstValueGo (name : String) : List (List Char) → Option String
  | [] => none
  | f :: fs =>
    if f.isEmpty then qsFirstValueGo name fs
    else
      match splitAtFirst '=' f with
      | (_, none) => qsFirstValueGo name fs
      | (n, some v) =>
        if v.isEmpty then qsFirstValueGo name fs
        else if decodeQsComponent n = name then some (decodeQsComponent v)
        else qsFirstValueGo name fs

def qsFirstValue (query : String) (name : String) : Option String :=
  qsFirstValueGo name (splitOnChar '&' query.data)

/-! ## Cache policy classification -/

/-- Lower-case hexadecimal digit, the character class of `COMMIT_SHA_PATTERN`. -/
def isHexLowerDigit (c : Char) : Bool :=
  ('a' ≤ c && c ≤ 'f') || ('0' ≤ c && c ≤ '9')

/-- `COMMIT_SHA_PATTERN.fullmatch`: the regex `^[a-f0-9]{7,40}$`. -/
def commitShaFullmatch (s : String) : Bool :=
  s.data.all isHexLowerDigit && 7 ≤ s.data.length && s.data.length ≤ 40

/-- Query-parameter name used by the contents endpoint. -/
def refKey : String := "ref"

/-- The path segment marking a file-content endpoint. -/
def contentsSegment : List Char := "/contents/".data

/-- Substring test on character lists (model of Python's `in` on strings). -/
def listIsInfixOf (needle : List Char) : List Char → Bool
  | [] => needle.isEmpty
  | c :: rest => needle.isPrefixOf (c :: rest) || listIsInfixOf needle rest

/-- TTL configuration of a `GitHubResponseCache` instance (constructor
keyword arguments, with the module defaults). -/
structure CacheConfig where
  mutable_ttl_seconds : Rat
  branch_content_ttl_seconds : Rat
  immutable_content_ttl_seconds : Rat
deriving DecidableEq, Repr

def defaultCacheConfig : CacheConfig :=
  { mutable_ttl_seconds := DEFAULT_MUTABLE_TTL_SECONDS
    branch_content_ttl_seconds := DEFAULT_BRANCH_CONTENT_TTL_SECONDS
    immutable_content_ttl_seconds := DEFAULT_IMMUTABLE_CONTENT_TTL_SECONDS }

/-- `GitHubResponseCache.policy_for_endpoint`: classify an endpoint into a
cache policy from its path and `ref` query parameter. -/
def policy_for_endpoint (cfg : CacheConfig) (endpoint : String) : CachePolicy :=
  let pq := urlsplitPathQuery endpoint
  if listIsInfixOf contentsSegment pq.1.data then
    match qsFirstValue pq.2 refKey with
    | some ref =>
      if ref ≠ "" && commitShaFullmatch ref then
        { ttl_seconds := some cfg.immutable_content_ttl_seconds, immutable := true }
      else
        { ttl_seconds := some cfg.branch_content_ttl_seconds, immutable := false }
    | none =>
      { ttl_seconds := some cfg.branch_content_ttl_seconds, immutable := false }
  else
    { ttl_seconds := some cfg.mutable_ttl_seconds, immutable := false }

/-- `_expires_at_for_policy`: expiry timestamp for a cache policy. -/
def _expires_at_for_policy (now : Rat) (policy : CachePolicy) : Option Rat :=
  if policy.immutable then none
  else
    match policy.ttl_seconds with
    | none => none
    | some ttl => some (now + ttl)

/-- `_is_fresh_cache_entry`: whether an entry can be reused without a
network request. -/
def _is_fresh_cache_entry (entry : CachedHttpResponse) (now : Rat) : Bool :=
  match entry.expires_at with
  | none => true
  | some t => now < t

/-! ## Diff range extractor (`parse_head_changed_ranges_from_patch`) -/

/-- `ChangedRange` dataclass: span of changed line numbers in the PR head
revision. -/
structure ChangedRange where
  line_start : Nat
  line_end : Nat
deriving DecidableEq, Repr

/-- Line-boundary characters recognised by `str.splitlines`. -/
def isLineBreakChar (c : Char) : Bool :=
  c = '\n' || c = '\r' || c.toNat = 11 || c.toNat = 12 ||
  c.toNat = 28 || c.toNat = 29 || c.toNat = 30 || c.toNat = 133 ||
  c.toNat = 8232 || c.toNat = 8233

/-- Model of `str.splitlines`: split at line boundaries (`\r\n` counts as
one boundary) and drop a trailing empty line. -/
def splitlinesAux : List Char → List Char → List (List Char)
  | [], acc => if acc.isEmpty then [] else [acc.reverse]
  | '\r' :: '\n' :: rest, acc => acc.reverse :: splitlinesAux rest []
  | c :: rest, acc =>
    if isLineBreakChar c then acc.reverse :: splitlinesAux rest []
    else splitlinesAux rest (c :: acc)

def pySplitlines (l : List Char) : List (List Char) :=
  splitlinesAux l []

def isAsciiDigit (c : Char) : Bool := '0' ≤ c && c ≤ '9'

/-- Parse a nonempty run of decimal digits; return its value and the rest. -/
def parseDigits (l : List Char) : Option (Nat × List Char) :=
  let digits := l.takeWhile isAsciiDigit
  if digits.isEmpty then none
  else some (digits.foldl (fun n c => 10 * n + (c.toNat - '0'.toNat)) 0,
             l.dropWhile isAsciiDigit)

/-- Consume the optional `,count` group of a hunk header: a comma followed
by at least one digit.  (With the greedy `(?:,(\d+))?` group, the regex
matches exactly when the full digit run after the comma is followed by
the next literal of the pattern, which the caller checks.) -/
def skipCommaCount (l : List Char) : List Char :=
  match l with
  | ',' :: rest =>
    match parseDigits rest with
    | some (_, r) => r
    | none => l
  | _ => l

/-- Model of `HUNK_HEADER_PATTERN.match`, the regex
`^@@ -(\d+)(?:,(\d+))? \+(\d+)(?:,(\d+))? @@`; returns the `head_start`
group on a match.  Anchored at the start only; trailing text is allowed. -/
def parseHunkHeader (l : List Char) : Option Nat :=
  match l with
  | '@' :: '@' :: ' ' :: '-' :: rest =>
    match parseDigits rest with
    | none => none
    | some (_, r1) =>
      match skipCommaCount r1 with
      | ' ' :: '+' :: r3 =>
        match parseDigits r3 with
        | none => none
        | some (headStart, r4) =>
          match skipCommaCount r4 with
          | ' ' :: '@' :: '@' :: _ => some headStart
          | _ => none
      | _ => none
  | _ => none

/-- Scanner state of `parse_head_changed_ranges_from_patch`: the running
head-line counter, whether a hunk header has been seen, the currently
open range (the paired `range_start`/`range_end` locals), and the ranges
emitted so far in order. -/
structure DiffScanState where
  in_hunk : Bool
  head_line : Nat
  open_range : Option (Nat × Nat)
  ranges : List ChangedRange
deriving DecidableEq, Repr

def diffScanInit : DiffScanState :=
  { in_hunk := false, head_line := 0, open_range := none, ranges := [] }

/-- `flush_open_range`: append the open range (if any) to the output. -/
def flushOpenRange (st : DiffScanState) : DiffScanState :=
  match st.open_range with
  | none => st
  | some (s, e) =>
    { st with open_range := none
              ranges := st.ranges ++ [{ line_start := s, line_end := e }] }

/-- One iteration of the line loop of `parse_head_changed_ranges_from_patch`. -/
def diffScanStep (st : DiffScanState) (line : List Char) : DiffScanState :=
  match parseHunkHeader line with
  | some headStart =>
    let st := flushOpenRange st
    { st with in_hunk := true, head_line := headStart }
  | none =>
    if !st.in_hunk then st
    else
      match line with
      | '+' :: '+' :: '+' :: _ => flushOpenRange st
      | '+' :: _ =>
        let newOpen :=
          match st.open_range with
          | none => (st.head_line, st.head_line)
          | some (s, _) => (s, st.head_line)
        { st with open_range := some newOpen, head_line := st.head_line + 1 }
      | ' ' :: _ =>
        let st := flushOpenRange st
        { st with head_line := st.head_line + 1 }
      | '-' :: '-' :: '-' :: _ => flushOpenRange st
      | '-' :: _ => flushOpenRange st
      | '\\' :: _ => st
      | _ => flushOpenRange st

/-- `parse_head_changed_ranges_from_patch`: extract head-side changed line
spans from a unified diff patch. -/
def parse_head_changed_ranges_from_patch (patch : String) : List ChangedRange :=
  (flushOpenRange ((pySplitlines patch.data).foldl diffScanStep diffScanInit)).ranges

/-! ## Retrying fetcher (`_request_with_retries`)

The network is modelled as the list of responses successive `client.get`
calls would return; the wall clock as a stream `clock : Nat → Rat` read
once per `time.time()` call, in source order; the cache table row for the
request's key as an explicit `Option CachedHttpResponse` slot (each call
touches exactly one key, and the SHA-256 keying makes distinct
endpoint/accept pairs use distinct rows).  A fetch returns its result
together with the network requests issued (with their headers), the
retry sleeps performed, the cache writes performed, and the final slot. -/

/-- A network response as seen through `httpx`: status, raw body bytes,
and the three response headers the fetcher reads. -/
structure HttpResponse where
  statusCode : Nat
  body : List Nat
  etag : Option String
  lastModified : Option String
  retryAfter : Option String
deriving DecidableEq, Repr

/-- The request headers `_request_with_retries` may attach. -/
structure RequestHeaders where
  accept : Option String
  ifNoneMatch : Option String
  ifModifiedSince : Option String
deriving DecidableEq, Repr

/-- Outcome of one logical fetch.  `ok` covers both network responses and
responses rebuilt from cache; `apiError` is `GitHubApiError`, with the
flag marking the `GitHubRateLimitError` subclass; `outOfResponses` is a
model artifact (the response list ran out); `loopExhausted` is the
unreachable `RuntimeError` after the loop. -/
inductive FetchResult where
  | ok (resp : HttpResponse)
  | apiError (rateLimited : Bool) (statusCode : Nat) (endpoint : String)
  | outOfResponses
  | loopExhausted
deriving DecidableEq, Repr

/-- A write performed against the cache row: a full `upsert`, or a
freshness `touch` (recorded with the row as stored after the touch). -/
inductive CacheWrite where
  | upsert (entry : CachedHttpResponse)
  | touch (entry : CachedHttpResponse)
deriving DecidableEq, Repr

/-- The stored entry a cache write leaves behind. -/
def CacheWrite.entry : CacheWrite → CachedHttpResponse
  | .upsert e => e
  | .touch e => e

structure FetchOutput where
  result : FetchResult
  requests : List RequestHeaders
  sleeps : List Rat
  writes : List CacheWrite
  slot : Option CachedHttpResponse
deriving DecidableEq, Repr

/-- Truthiness of an optional string (Python `if value:`): present and
nonempty. -/
def optTruthy : Option String → Option String
  | some s => if s = "" then none else some s
  | none => none

/-- `_response_from_cache`: rebuild a lightweight response from a cached
payload; ETag / Last-Modified response headers are set when truthy. -/
def _response_from_cache (cached : CachedHttpResponse) : HttpResponse :=
  { statusCode := cached.status_code
    body := cached.body
    etag := optTruthy cached.etag
    lastModified := optTruthy cached.last_modified
    retryAfter := none }

/-- `_is_retryable_status`: 429 or any 5xx. -/
def _is_retryable_status (status_code : Nat) : Bool :=
  status_code = 429 || (500 ≤ status_code && status_code < 600)

/-- Python whitespace stripped by `float(str)`. -/
def isPyFloatSpace (c : Char) : Bool :=
  c = ' ' || c = '\t' || c = '\n' || c = '\r' || c.toNat = 11 || c.toNat = 12

/-- Value of a digit run as a natural number. -/
def digitsVal (l : List Char) : Nat :=
  l.foldl (fun n c => 10 * n + (c.toNat - '0'.toNat)) 0

/-- Model of Python `float(s)` on finite decimal literals: optional
surrounding whitespace, optional sign, digits with optional fraction
(at least one digit overall), optional decimal exponent.  The special
spellings `inf` / `nan` and digit-group underscores are outside the
model, as is binary floating-point rounding (values are exact rationals). -/
def pyFloatOfString (s : String) : Option Rat :=
  let l := s.data.dropWhile isPyFloatSpace
  let l := (l.reverse.dropWhile isPyFloatSpace).reverse
  let signAndRest : Rat × List Char :=
    match l with
    | '+' :: rest => (1, rest)
    | '-' :: rest => (-1, rest)
    | _ => (1, l)
  let sign := signAndRest.1
  let l1 := signAndRest.2
  let intDigits := l1.takeWhile isAsciiDigit
  let r1 := l1.dropWhile isAsciiDigit
  let fracAndRest : List Char × List Char :=
    match r1 with
    | '.' :: r2 => (r2.takeWhile isAsciiDigit, r2.dropWhile isAsciiDigit)
    | _ => ([], r1)
  let fracDigits := fracAndRest.1
  let r2 := fracAndRest.2
  if intDigits.isEmpty && fracDigits.isEmpty then none
  else
    let mantissa : Rat :=
      (digitsVal intDigits : Rat) + (digitsVal fracDigits : Rat) / (10 : Rat) ^ fracDigits.length
    let expAndRest : Option (Int × List Char) :=
      match r2 with
      | 'e' :: r3 | 'E' :: r3 =>
        let expSignAndRest : Int × List Char :=
          match r3 with
          | '+' :: r4 => (1, r4)
          | '-' :: r4 => (-1, r4)
          | _ => (1, r3)
        let expDigits := expSignAndRest.2.takeWhile isAsciiDigit
        if expDigits.isEmpty then none
        else some (expSignAndRest.1 * (digitsVal expDigits : Int),
                   expSignAndRest.2.dropWhile isAsciiDigit)
      | _ => some (0, r2)
    match expAndRest with
    | none => none
    | some (e, rest) =>
      if rest.isEmpty then
        some (sign * mantissa * (10 : Rat) ^ e)
      else none

/-- `_parse_retry_after_seconds`: the `Retry-After` header as seconds when
present, parsable and non-negative. -/
def _parse_retry_after_seconds (resp : HttpResponse) : Option Rat :=
  match resp.retryAfter with
  | none => none
  | some retry_after =>
    match pyFloatOfString retry_after with
    | none => none
    | some parsed_value => if parsed_value < 0 then none else some parsed_value

/-- `_compute_retry_delay_seconds`: `Retry-After` when usable, else
exponential backoff from the fixed base. -/
def _compute_retry_delay_seconds (resp : HttpResponse) (attempt_number : Nat) : Rat :=
  match _parse_retry_after_seconds resp with
  | some retry_after_seconds => retry_after_seconds
  | none => DEFAULT_RETRY_BACKOFF_SECONDS * 2 ^ (attempt_number - 1)

/-- Loop-invariant context of the retry loop: everything computed before
`for attempt_number in range(1, max_attempts + 1)`. -/
structure FetchCtx where
  cfg : CacheConfig
  hasCache : Bool
  clock : Nat → Rat
  endpoint : String
  accept_header : Option String
  allow_not_found : Bool
  max_attempts : Nat
  hdrs : RequestHeaders
  cache_entry : Option CachedHttpResponse

/-- The cache entry built and stored by the two identical `upsert` blocks
(success and allowed 404).  `fetched_at` and the expiry base come from
two consecutive `time.time()` reads. -/
def upsertEntry (ctx : FetchCtx) (resp : HttpResponse) (tick : Nat) : CachedHttpResponse :=
  let policy := policy_for_endpoint ctx.cfg ctx.endpoint
  { status_code := resp.statusCode
    body := resp.body
    etag := resp.etag
    last_modified := resp.lastModified
    fetched_at := ctx.clock tick
    expires_at := _expires_at_for_policy (ctx.clock (tick + 1)) policy
    immutable := policy.immutable }

/-- Terminal output for a response that is persisted and returned
(success, or allowed 404). -/
def persistAndReturn (ctx : FetchCtx) (resp : HttpResponse) (tick : Nat)
    (slot : Option CachedHttpResponse) : FetchOutput :=
  if ctx.hasCache then
    let entry := upsertEntry ctx resp tick
    { result := .ok resp, requests := [ctx.hdrs], sleeps := [],
      writes := [.upsert entry], slot := some entry }
  else
    { result := .ok resp, requests := [ctx.hdrs], sleeps := [], writes := [], slot := slot }

/-- The row as stored after a freshness `touch`: only `fetched_at` and
`expires_at` change, from two consecutive `time.time()` reads. -/
def touchedEntry (ctx : FetchCtx) (stored : CachedHttpResponse) (tick : Nat) :
    CachedHttpResponse :=
  { stored with fetched_at := ctx.clock tick
                expires_at := _expires_at_for_policy (ctx.clock (tick + 1))
                  (policy_for_endpoint ctx.cfg ctx.endpoint) }

/-- Terminal output for a 304 revalidation hit: touch the stored row's
freshness window and return the cached body. -/
def notModifiedReturn (ctx : FetchCtx) (ce : CachedHttpResponse) (tick : Nat)
    (slot : Option CachedHttpResponse) : FetchOutput :=
  if ctx.hasCache then
    match slot with
    | some stored =>
      { result := .ok (_response_from_cache ce), requests := [ctx.hdrs], sleeps := [],
        writes := [.touch (touchedEntry ctx stored tick)],
        slot := some (touchedEntry ctx stored tick) }
    | none =>
      { result := .ok (_response_from_cache ce), requests := [ctx.hdrs], sleeps := [],
        writes := [], slot := none }
  else
    { result := .ok (_response_from_cache ce), requests := [ctx.hdrs], sleeps := [],
      writes := [], slot := slot }

/-- The retry loop body, by recursion on the remaining attempts.
`attempt_number` is the source's loop variable; top-level calls start it
at 1 with `fuel = max_attempts`. -/
def retryLoop (ctx : FetchCtx) (attempt_number : Nat) (fuel : Nat)
    (responses : List HttpResponse) (tick : Nat)
    (slot : Option CachedHttpResponse) : FetchOutput :=
  match fuel with
  | 0 => { result := .loopExhausted, requests := [], sleeps := [], writes := [], slot := slot }
  | fuel' + 1 =>
    match responses with
    | [] => { result := .outOfResponses, requests := [], sleeps := [], writes := [], slot := slot }
    | resp :: rest =>
      let notModifiedCase : Bool :=
        resp.statusCode = 304 && ctx.cache_entry.isSome
      if notModifiedCase then
        match ctx.cache_entry with
        | some ce => notModifiedReturn ctx ce tick slot
        | none => { result := .loopExhausted, requests := [], sleeps := [], writes := [], slot := slot }
      else if resp.statusCode < 400 then
        persistAndReturn ctx resp tick slot
      else if ctx.allow_not_found && resp.statusCode = 404 then
        persistAndReturn ctx resp tick slot
      else
        let should_retry :=
          _is_retryable_status resp.statusCode && attempt_number < ctx.max_attempts
        if should_retry then
          let delay_seconds := _compute_retry_delay_seconds resp attempt_number
          let out := retryLoop ctx (attempt_number + 1) fuel' rest tick slot
          { out with requests := ctx.hdrs :: out.requests,
                     sleeps := delay_seconds :: out.sleeps }
        else
          { result := .apiError (decide (resp.statusCode = 429)) resp.statusCode ctx.endpoint
            requests := [ctx.hdrs], sleeps := [], writes := [], slot := slot }

/-- The cache read plus 404-marker filtering at the top of
`_request_with_retries`: the entry is `None` when there is no cache
backend, when the row is missing, or when it is a `404` marker and
`allow_not_found` is off. -/
def requestCacheEntry (hasCache : Bool) (allow_not_found : Bool)
    (slot : Option CachedHttpResponse) : Option CachedHttpResponse :=
  match (if hasCache then slot else none) with
  | some e => if e.status_code = 404 && !allow_not_found then none else some e
  | none => none

/-- The request headers `_request_with_retries` builds: the Accept header,
plus `If-None-Match` when a truthy ETag is cached and the entry is not
immutable, else `If-Modified-Since` when a truthy Last-Modified is
cached. -/
def requestHeadersFor (accept_header : Option String)
    (cache_entry : Option CachedHttpResponse) : RequestHeaders :=
  let plainHdrs : RequestHeaders :=
    { accept := accept_header, ifNoneMatch := none, ifModifiedSince := none }
  match cache_entry with
  | some e =>
    if e.immutable then plainHdrs
    else
      match optTruthy e.etag with
      | some t => { plainHdrs with ifNoneMatch := some t }
      | none =>
        match optTruthy e.last_modified with
        | some lm => { plainHdrs with ifModifiedSince := some lm }
        | none => plainHdrs
  | none => plainHdrs

/-- The loop context `_request_with_retries` enters its retry loop with. -/
def fetchCtx (cfg : CacheConfig) (hasCache : Bool) (clock : Nat → Rat)
    (endpoint : String) (accept_header : Option String) (max_attempts : Nat)
    (allow_not_found : Bool) (slot : Option CachedHttpResponse) : FetchCtx :=
  { cfg := cfg, hasCache := hasCache, clock := clock, endpoint := endpoint,
    accept_header := accept_header, allow_not_found := allow_not_found,
    max_attempts := max_attempts,
    hdrs := requestHeadersFor accept_header (requestCacheEntry hasCache allow_not_found slot),
    cache_entry := requestCacheEntry hasCache allow_not_found slot }

/-- `_request_with_retries`: one logical GET.  Reads the clock once for
the freshness judgement (`now = time.time()`), consults the cache slot,
disregards a stale-by-status 404 marker unless `allow_not_found`, serves
a fresh entry without network, otherwise attaches conditional headers
and enters the retry loop. -/
def _request_with_retries (cfg : CacheConfig) (hasCache : Bool) (clock : Nat → Rat)
    (endpoint : String) (accept_header : Option String) (max_attempts : Nat)
    (allow_not_found : Bool) (slot : Option CachedHttpResponse)
    (responses : List HttpResponse) : FetchOutput :=
  let now := clock 0
  let ctx := fetchCtx cfg hasCache clock endpoint accept_header max_attempts
    allow_not_found slot
  match ctx.cache_entry with
  | some e =>
    if _is_fresh_cache_entry e now then
      { result := .ok (_response_from_cache e), requests := [], sleeps := [],
        writes := [], slot := slot }
    else
      retryLoop ctx 1 max_attempts responses 1 slot
  | none => retryLoop ctx 1 max_attempts responses 1 slot

/-! ## Structured decoder and JSON model

Python's `json` module decodes payloads into dicts, lists, strings,
numbers (`int` or `float`), booleans and `None`; objects are modelled as
association lists with distinct keys looked up in order. -/

inductive JsonValue where
  | null
  | bool (b : Bool)
  | int (n : Int)
  | float (q : Rat)
  | str (s : String)
  | arr (items : List JsonValue)
  | obj (fields : List (String × JsonValue))

/-- `payload.get(key)`: first binding of `key`, or `None`. -/
def jsonGet (fields : List (String × JsonValue)) (key : String) : Option JsonValue :=
  match fields with
  | [] => none
  | (k, v) :: rest => if k = key then some v else jsonGet rest key

/-- The error taxonomy raised by the decoding layer and input validation. -/
inductive GitHubError where
  | apiError (message : String) (statusCode : Nat) (endpoint : String)
  | rateLimitError (message : String) (statusCode : Nat) (endpoint : String)
  | inputError (message : String)
deriving DecidableEq, Repr

/-- `_require_str`: a required string field. -/
def _require_str (payload : List (String × JsonValue)) (key : String)
    (endpoint : String) : Except GitHubError String :=
  match jsonGet payload key with
  | some (.str value) => .ok value
  | _ => .error (.apiError
      ("Expected string field '" ++ key ++ "' in GitHub response.") 500 endpoint)

/-- `_require_bool`: a required boolean field. -/
def _require_bool (payload : List (String × JsonValue)) (key : String)
    (endpoint : String) : Except GitHubError Bool :=
  match jsonGet payload key with
  | some (.bool value) => .ok value
  | _ => .error (.apiError
      ("Expected boolean field '" ++ key ++ "' in GitHub response.") 500 endpoint)

/-- `_require_int`: a required integer field.  The source guard is
`isinstance(value, int) and not isinstance(value, bool)` — Python's
`bool` is a subclass of `int`, so booleans are rejected explicitly; in
this embedding JSON booleans and integers are distinct constructors and
the guard corresponds to accepting only the `.int` constructor. -/
def _require_int (payload : List (String × JsonValue)) (key : String)
    (endpoint : String) : Except GitHubError Int :=
  match jsonGet payload key with
  | some (.int value) => .ok value
  | _ => .error (.apiError
      ("Expected integer field '" ++ key ++ "' in GitHub response.") 500 endpoint)

/-! ## Input validation -/

/-- Python whitespace for `str.strip()`. -/
def isPyStripSpace (c : Char) : Bool :=
  c = ' ' || c = '	' || c = '
' || c = '
' || c.toNat = 11 || c.toNat = 12

def pyStrip (l : List Char) : List Char :=
  ((l.dropWhile isPyStripSpace).reverse.dropWhile isPyStripSpace).reverse

/-- `parse_repo_full_name`: validate `owner/repo` input. -/
def parse_repo_full_name (repo_full_name : String) : Except GitHubError (String × String) :=
  let stripped := pyStrip repo_full_name.data
  match splitAtFirst '/' stripped with
  | (_, none) => .error (.inputError
      ("Invalid repo '" ++ repo_full_name ++ "'. Expected format is owner/repo."))
  | (owner, some repo) =>
    if owner.isEmpty || repo.isEmpty || repo.contains '/' then
      .error (.inputError
        ("Invalid repo '" ++ repo_full_name ++ "'. Expected format is owner/repo."))
    else .ok (⟨owner⟩, ⟨repo⟩)

/-- `validate_pr_number`: PR numbers must be positive. -/
def validate_pr_number (pr_number : Int) : Except GitHubError Int :=
  if pr_number ≤ 0 then
    .error (.inputError
      ("Invalid PR number '" ++ toString pr_number ++ "'. Expected a positive integer."))
  else .ok pr_number

/-! ## Paginated file list (`fetch_pull_request_files`) -/

/-- `PullRequestFile` dataclass. -/
structure PullRequestFile where
  path : String
  status : String
  additions : Int
  deletions : Int
  changes : Int
  patch : Option String
  previous_filename : Option String
  changed_ranges : List ChangedRange
  is_binary : Bool
deriving DecidableEq, Repr

def filenameKey : String := "filename"
def statusKey : String := "status"
def patchKey : String := "patch"
def previousFilenameKey : String := "previous_filename"
def additionsKey : String := "additions"
def deletionsKey : String := "deletions"
def changesKey : String := "changes"

/-- Decode one row of the files listing (the body of the `for row in rows`
loop in `fetch_pull_request_files`), in source evaluation order. -/
def decodePullRequestFileRow (endpoint : String)
    (row : List (String × JsonValue)) : Except GitHubError PullRequestFile := do
  let filename ← _require_str row filenameKey endpoint
  let status ← _require_str row statusKey endpoint
  let patch_value ←
    match jsonGet row patchKey with
    | none => pure none
    | some .null => pure none
    | some (.str s) => pure (some s)
    | some _ => Except.error (.apiError
        ("Expected 'patch' to be a string or null in GitHub response.") 500 endpoint)
  let previous_filename ←
    match jsonGet row previousFilenameKey with
    | none => pure none
    | some .null => pure none
    | some (.str s) => pure (some s)
    | some _ => Except.error (.apiError
        ("Expected 'previous_filename' to be a string or null in GitHub response.") 500 endpoint)
  let additions ← _require_int row additionsKey endpoint
  let deletions ← _require_int row deletionsKey endpoint
  let changes ← _require_int row changesKey endpoint
  pure
    { path := filename
      status := status
      additions := additions
      deletions := deletions
      changes := changes
      patch := patch_value
      previous_filename := previous_filename
      changed_ranges :=
        match patch_value with
        | some p => parse_head_changed_ranges_from_patch p
        | none => []
      is_binary := patch_value.isNone }

/-- The array-shape validation of `_request_json_list`: every item must be
a JSON object (checked for the whole page before any row is decoded). -/
def ensureObjRows (endpoint : String) :
    List JsonValue → Except GitHubError (List (List (String × JsonValue)))
  | [] => .ok []
  | .obj fields :: rest => (ensureObjRows endpoint rest).map (fields :: ·)
  | _ :: _ => .error (.apiError
      ("Expected all array items to be JSON objects in GitHub response.") 500 endpoint)

/-- The `for row in rows` decoding loop: each row in order, first error
aborts. -/
def decodeRowsList (endpoint : String) :
    List (List (String × JsonValue)) → Except GitHubError (List PullRequestFile)
  | [] => .ok []
  | row :: rest => do
    let f ← decodePullRequestFileRow endpoint row
    let fs ← decodeRowsList endpoint rest
    pure (f :: fs)

/-- Decode one page: shape-check all rows, then decode each in order. -/
def decodeRowsPage (endpoint : String) (rows : List JsonValue) :
    Except GitHubError (List PullRequestFile) := do
  let objs ← ensureObjRows endpoint rows
  decodeRowsList endpoint objs

def perPageLiteral : Nat := 100

/-- The per-page endpoint string `f"{base}?per_page={per_page}&page={page}"`. -/
def filesPageEndpoint (base_endpoint : String) (page : Nat) : String :=
  base_endpoint ++ perPageQueryText ++ toString page
where perPageQueryText : String := "?per_page=100&page="

/-- The pagination loop of `fetch_pull_request_files`.  The network is
modelled as the list of successive page payloads; pages beyond the end of
the list are empty (the upstream API returns an empty array past the last
page), which is why the `[]` case breaks with no further rows. -/
def fetchFilesPages (base_endpoint : String) (page : Nat)
    (pages : List (List JsonValue)) : Except GitHubError (List PullRequestFile) :=
  match pages with
  | [] => .ok []
  | rows :: rest =>
    if rows.isEmpty then .ok []
    else do
      let files ← decodeRowsPage (filesPageEndpoint base_endpoint page) rows
      if rows.length < perPageLiteral then pure files
      else do
        let more ← fetchFilesPages base_endpoint (page + 1) rest
        pure (files ++ more)

/-- The base endpoint `f"/repos/{owner}/{repo}/pulls/{n}/files"`. -/
def filesBaseEndpoint (owner repo : String) (n : Int) : String :=
  "/repos/" ++ owner ++ "/" ++ repo ++ "/pulls/" ++ toString n ++ "/files"

/-- `fetch_pull_request_files`: validate the inputs, then page through the
files listing. -/
def fetch_pull_request_files (repo_full_name : String) (pr_number : Int)
    (pages : List (List JsonValue)) : Except GitHubError (List PullRequestFile) := do
  let ownerRepo ← parse_repo_full_name repo_full_name
  let n ← validate_pr_number pr_number
  fetchFilesPages (filesBaseEndpoint ownerRepo.1 ownerRepo.2 n) 1 pages

/-! ## File content resolver (`resolve_pull_request_file_content`)

`fetch_file_content_at_ref` performs network traffic; here it is an
oracle `fetcher : path → ref → FileContentAtRef`, and the resolver's
output records the `(path, ref)` fetch calls it issued, in order. -/

/-- `FileContentAtRef` dataclass.  The Python field `exists` is a Lean
keyword, hence `exists_flag`. -/
structure FileContentAtRef where
  ref : String
  path : String
  exists_flag : Bool
  sha : Option String
  size_bytes : Option Int
  text : Option String
  is_binary : Bool
  encoding : Option String
  warning : Option String
deriving DecidableEq, Repr

/-- `_build_missing_content`: placeholder for a file expected to be absent
at a ref. -/
def _build_missing_content (ref : String) (path : String) (warning : String) :
    FileContentAtRef :=
  { ref := ref, path := path, exists_flag := false, sha := none, size_bytes := none,
    text := none, is_binary := false, encoding := none, warning := some warning }

/-- `PullRequestFileContent` dataclass. -/
structure PullRequestFileContent where
  path : String
  status : String
  base : FileContentAtRef
  head : FileContentAtRef
  warnings : List String
deriving DecidableEq, Repr

structure ResolveOutput where
  content : PullRequestFileContent
  fetches : List (String × String)
deriving DecidableEq, Repr

def addedBaseWarning (path : String) : String :=
  "File '" ++ path ++ "' is added and absent at base ref."

def removedHeadWarning (path : String) : String :=
  "File '" ++ path ++ "' is removed and absent at head ref."

def renamedFallbackWarning (path : String) : String :=
  "Renamed file '" ++ path ++ "' missing previous_filename; " ++
  "using current path for base fetch."

def unknownStatusWarning (status : String) (path : String) : String :=
  "Unknown file status '" ++ status ++ "' for '" ++ path ++ "'; " ++
  "attempting current path on base/head refs."

def addedStatus : String := "added"
def removedStatus : String := "removed"
def renamedStatus : String := "renamed"
def modifiedStatus : String := "modified"

/-- Append a truthy per-side warning (Python `if content.warning:`). -/
def appendContentWarning (warnings : List String) (c : FileContentAtRef) : List String :=
  match optTruthy c.warning with
  | some w => warnings ++ [w]
  | none => warnings

/-- `resolve_pull_request_file_content`: choose the base/head fetch plan
from the file's change status and accumulate warnings. -/
def resolve_pull_request_file_content (fetcher : String → String → FileContentAtRef)
    (base_sha : String) (head_sha : String) (pull_request_file : PullRequestFile) :
    ResolveOutput :=
  let status := pull_request_file.status
  let path := pull_request_file.path
  let planned :
      FileContentAtRef × FileContentAtRef × List String × List (String × String) :=
    if status = addedStatus then
      let base_content := _build_missing_content base_sha path (addedBaseWarning path)
      let head_content := fetcher path head_sha
      (base_content, head_content, [], [(path, head_sha)])
    else if status = removedStatus then
      let base_content := fetcher path base_sha
      let head_content := _build_missing_content head_sha path (removedHeadWarning path)
      (base_content, head_content, [], [(path, base_sha)])
    else if status = renamedStatus then
      match pull_request_file.previous_filename with
      | none =>
        let base_content := fetcher path base_sha
        let head_content := fetcher path head_sha
        (base_content, head_content, [renamedFallbackWarning path],
         [(path, base_sha), (path, head_sha)])
      | some previous_path =>
        let base_content := fetcher previous_path base_sha
        let head_content := fetcher path head_sha
        (base_content, head_content, [],
         [(previous_path, base_sha), (path, head_sha)])
    else if status = modifiedStatus then
      (fetcher path base_sha, fetcher path head_sha, [],
       [(path, base_sha), (path, head_sha)])
    else
      (fetcher path base_sha, fetcher path head_sha, [unknownStatusWarning status path],
       [(path, base_sha), (path, head_sha)])
  let base_content := planned.1
  let head_content := planned.2.1
  let warnings := planned.2.2.1
  let warnings := appendContentWarning warnings base_content
  let warnings := appendContentWarning warnings head_content
  { content :=
      { path := path, status := status, base := base_content, head := head_content,
        warnings := warnings }
    fetches := planned.2.2.2 }

/-! ## Claim-side and witness definitions -/

/-- Classifier transcribing the C1 claim text: a file-content endpoint
whose `ref` is an exact FULL-LENGTH hex commit id (40 lower-case hex
digits) is immutable; a file-content endpoint at any other ref gets the
branch-content TTL; every other endpoint the short mutable TTL. -/
def claimPolicyForEndpoint (cfg : CacheConfig) (endpoint : String) : CachePolicy :=
  let pq := urlsplitPathQuery endpoint
  if listIsInfixOf contentsSegment pq.1.data then
    match qsFirstValue pq.2 refKey with
    | some ref =>
      if ref.data.length = 40 && ref.data.all isHexLowerDigit then
        { ttl_seconds := some cfg.immutable_content_ttl_seconds, immutable := true }
      else
        { ttl_seconds := some cfg.branch_content_ttl_seconds, immutable := false }
    | none =>
      { ttl_seconds := some cfg.branch_content_ttl_seconds, immutable := false }
  else
    { ttl_seconds := some cfg.mutable_ttl_seconds, immutable := false }

/-- Classifier transcribing the AMENDED C1 claim: immutable at any ref
that is a hex commit id of length 7 to 40 (abbreviated or full-length). -/
def amendedPolicyForEndpoint (cfg : CacheConfig) (endpoint : String) : CachePolicy :=
  let pq := urlsplitPathQuery endpoint
  if listIsInfixOf contentsSegment pq.1.data then
    match qsFirstValue pq.2 refKey with
    | some ref =>
      if 7 ≤ ref.data.length && ref.data.length ≤ 40 && ref.data.all isHexLowerDigit then
        { ttl_seconds := some cfg.immutable_content_ttl_seconds, immutable := true }
      else
        { ttl_seconds := some cfg.branch_content_ttl_seconds, immutable := false }
    | none =>
      { ttl_seconds := some cfg.branch_content_ttl_seconds, immutable := false }
  else
    { ttl_seconds := some cfg.mutable_ttl_seconds, immutable := false }

/-- A file-content endpoint whose `ref` is a 7-character abbreviated hex
commit id: not full length, hence per the claim a mutable branch
reference, yet the code classifies it immutable. -/
def shortShaEndpoint : String := "/repos/acme/rocket/contents/src/app.py?ref=abcdef0"

/-- A file-content endpoint pinned at a full-length commit id. -/
def fullShaEndpoint : String :=
  "/repos/acme/rocket/contents/src/app.py?ref=aaaaaaaaaaaaaaaaaaaaaaaaaaaaaaaaaaaaaaaa"

def c10Endpoint : String := "/repos/acme/rocket/pulls/42/files?per_page=100&page=1"

/-- A files-listing row whose `additions` counter is the JSON boolean
`true`. -/
def c10BoolRow : List (String × JsonValue) :=
  [(filenameKey, .str "src/app.py"), (statusKey, .str "modified"),
   (additionsKey, .bool true), (deletionsKey, .int 0), (changesKey, .int 1)]

def c7SampleContent : FileContentAtRef :=
  { ref := "headsha", path := "src/app.py", exists_flag := true, sha := some "abc",
    size_bytes := some 10, text := some "print()", is_binary := false,
    encoding := some "base64", warning := none }

def c7AddedFile : PullRequestFile :=
  { path := "src/app.py", status := addedStatus, additions := 1, deletions := 0,
    changes := 1, patch := some "@@ -0,0 +1 @@", previous_filename := none,
    changed_ranges := [], is_binary := false }

def c7RenamedFile : PullRequestFile :=
  { path := "src/new_name.py", status := renamedStatus, additions := 0, deletions := 0,
    changes := 0, patch := none, previous_filename := none,
    changed_ranges := [], is_binary := true }

def c7BaseSha : String := "basesha"

def c7HeadSha : String := "headsha"

def zeroClock : Nat → Rat := fun _ => 0

def c3Endpoint : String := "/repos/acme/rocket/pulls/42"

/-- A 429 response carrying `Retry-After: 3`. -/
def resp429RA3 : HttpResponse :=
  { statusCode := 429, body := [], etag := none, lastModified := none,
    retryAfter := some "3" }

def resp502 : HttpResponse :=
  { statusCode := 502, body := [], etag := none, lastModified := none, retryAfter := none }

def resp200 : HttpResponse :=
  { statusCode := 200, body := [10, 20], etag := some "E1", lastModified := some "L1",
    retryAfter := none }

def resp404 : HttpResponse :=
  { statusCode := 404, body := [], etag := none, lastModified := none, retryAfter := none }

def eTagSample : String := "E"

def lastModifiedSample : String := "L"

/-- A stale mutable cache entry (expired at time 0). -/
def c2StaleEntry : CachedHttpResponse :=
  { status_code := 200, body := [9, 9], etag := some eTagSample,
    last_modified := some lastModifiedSample, fetched_at := -1, expires_at := some 0,
    immutable := false }

def resp304Sample : HttpResponse :=
  { statusCode := 304, body := [], etag := none, lastModified := none, retryAfter := none }

def c8SampleWrite : CacheWrite :=
  .upsert (upsertEntry (fetchCtx defaultCacheConfig true zeroClock fullShaEndpoint none
    GITHUB_MAX_RETRIES false none) resp200 1)

/-- A cached `404` marker row. -/
def c9Entry404 : CachedHttpResponse :=
  { status_code := 404, body := [], etag := none, last_modified := none,
    fetched_at := 0, expires_at := none, immutable := true }

def c6Repo : String := "acme/rocket"

def c6Owner : String := "acme"

def c6RepoName : String := "rocket"

/-- A minimal well-formed files-listing row. -/
def c6SampleRow : JsonValue :=
  .obj [(filenameKey, .str "a.py"), (statusKey, .str "modified"),
    (additionsKey, .int 1), (deletionsKey, .int 0), (changesKey, .int 1)]

/-- The decoding of `c6SampleRow`. -/
def c6DecodedFile : PullRequestFile :=
  { path := "a.py", status := "modified", additions := 1, deletions := 0, changes := 1,
    patch := none, previous_filename := none, changed_ranges := [], is_binary := true }

/-- The well-formedness check the amended C5 claim conditions on: at every
hunk header, the new head start lies strictly beyond every line already
produced (emitted ranges and the open range).  Well-formed unified diffs,
whose hunks are listed in ascending order, satisfy it. -/
def headerFresh (st : DiffScanState) (h : Nat) : Bool :=
  st.ranges.all (fun r => r.line_end < h) &&
  (match st.open_range with
   | some (_, e) => decide (e < h)
   | none => true)

def hunkMonoStep (p : DiffScanState × Bool) (line : List Char) : DiffScanState × Bool :=
  match parseHunkHeader line with
  | some h => (diffScanStep p.1 line, p.2 && headerFresh p.1 h)
  | none => (diffScanStep p.1 line, p.2)

/-- Executable check that all hunk headers of a patch are ascending in the
above sense. -/
def hunkHeadersMonotone (patch : String) : Bool :=
  ((pySplitlines patch.data).foldl hunkMonoStep (diffScanInit, true)).2

/-- The §8 scenario patch: one hunk replacing one line with two. -/
def specExamplePatch : String := "@@ -5,1 +5,2 @@\n-old\n+new_a\n+new_b"

/-- A run of added lines interrupted by a context line. -/
def splitExamplePatch : String := "@@ -1,3 +1,4 @@\n+a\n ctx\n+b"

/-- An adversarial patch whose second hunk header jumps backwards. -/
def badHunkPatch : String := "@@ -1 +10 @@\n+x\n@@ -1 +1 @@\n+y"

/-- Ranges are ascending and non-overlapping: consecutive ranges satisfy
`line_end < line_start`. -/
def rangesAscending (l : List ChangedRange) : Prop :=
  List.Chain' (fun a b => a.line_end < b.line_start) l

/-- Scanner invariant needing no assumption on the patch: emitted ranges
are well-formed, and the open range ends right before the counter. -/
def scanWF (st : DiffScanState) : Prop :=
  (∀ r ∈ st.ranges, r.line_start ≤ r.line_end) ∧
  (∀ s e, st.open_range = some (s, e) → s ≤ e ∧ st.head_line = e + 1)

/-- Scanner ordering invariant, maintained while hunk headers stay ahead
of everything already produced. -/
def scanOrdered (st : DiffScanState) : Prop :=
  rangesAscending st.ranges ∧
  (∀ s e, st.open_range = some (s, e) → ∀ r ∈ st.ranges, r.line_end < s) ∧
  (st.open_range = none → ∀ r ∈ st.ranges, r.line_end < st.head_line)


/-! ## Equation and projection lemmas for the retry loop -/

theorem retryLoop_zero (ctx : FetchCtx) (a : Nat) (rs : List HttpResponse) (t : Nat)
    (s : Option CachedHttpResponse) :
    retryLoop ctx a 0 rs t s
      = { result := .loopExhausted, requests := [], sleeps := [], writes := [], slot := s } :=
  rfl

theorem retryLoop_nil (ctx : FetchCtx) (a fuel' : Nat) (t : Nat)
    (s : Option CachedHttpResponse) :
    retryLoop ctx a (fuel' + 1) [] t s
      = { result := .outOfResponses, requests := [], sleeps := [], writes := [], slot := s } :=
  rfl

theorem retryLoop_cons_notModified (ctx : FetchCtx) (a fuel' : Nat) (resp : HttpResponse)
    (rest : List HttpResponse) (t : Nat) (s : Option CachedHttpResponse)
    (ce : CachedHttpResponse) (hce : ctx.cache_entry = some ce)
    (h304 : resp.statusCode = 304) :
    retryLoop ctx a (fuel' + 1) (resp :: rest) t s = notModifiedReturn ctx ce t s := by
  unfold retryLoop
  simp [hce, h304]

theorem retryLoop_cons_success (ctx : FetchCtx) (a fuel' : Nat) (resp : HttpResponse)
    (rest : List HttpResponse) (t : Nat) (s : Option CachedHttpResponse)
    (hnm : (resp.statusCode = 304 && ctx.cache_entry.isSome) = false)
    (h400 : resp.statusCode < 400) :
    retryLoop ctx a (fuel' + 1) (resp :: rest) t s = persistAndReturn ctx resp t s := by
  unfold retryLoop
  simp [hnm, h400]

theorem retryLoop_cons_notFound (ctx : FetchCtx) (a fuel' : Nat) (resp : HttpResponse)
    (rest : List HttpResponse) (t : Nat) (s : Option CachedHttpResponse)
    (hnm : (resp.statusCode = 304 && ctx.cache_entry.isSome) = false)
    (h400 : ¬ resp.statusCode < 400)
    (h404 : (ctx.allow_not_found && resp.statusCode = 404) = true) :
    retryLoop ctx a (fuel' + 1) (resp :: rest) t s = persistAndReturn ctx resp t s := by
  unfold retryLoop
  simp [hnm, h400, h404]

theorem retryLoop_cons_retry (ctx : FetchCtx) (a fuel' : Nat) (resp : HttpResponse)
    (rest : List HttpResponse) (t : Nat) (s : Option CachedHttpResponse)
    (hnm : (resp.statusCode = 304 && ctx.cache_entry.isSome) = false)
    (h400 : ¬ resp.statusCode < 400)
    (h404 : (ctx.allow_not_found && resp.statusCode = 404) = false)
    (hr : (_is_retryable_status resp.statusCode && a < ctx.max_attempts) = true) :
    retryLoop ctx a (fuel' + 1) (resp :: rest) t s
      = { retryLoop ctx (a + 1) fuel' rest t s with
          requests := ctx.hdrs :: (retryLoop ctx (a + 1) fuel' rest t s).requests,
          sleeps := _compute_retry_delay_seconds resp a
            :: (retryLoop ctx (a + 1) fuel' rest t s).sleeps } := by
  conv_lhs => unfold retryLoop
  simp [hnm, h400, h404, hr]

theorem retryLoop_cons_fail (ctx : FetchCtx) (a fuel' : Nat) (resp : HttpResponse)
    (rest : List HttpResponse) (t : Nat) (s : Option CachedHttpResponse)
    (hnm : (resp.statusCode = 304 && ctx.cache_entry.isSome) = false)
    (h400 : ¬ resp.statusCode < 400)
    (h404 : (ctx.allow_not_found && resp.statusCode = 404) = false)
    (hr : (_is_retryable_status resp.statusCode && a < ctx.max_attempts) = false) :
    retryLoop ctx a (fuel' + 1) (resp :: rest) t s
      = { result := .apiError (decide (resp.statusCode = 429)) resp.statusCode ctx.endpoint,
          requests := [ctx.hdrs], sleeps := [], writes := [], slot := s } := by
  unfold retryLoop
  simp [hnm, h400, h404, hr]

theorem persistAndReturn_requests (ctx : FetchCtx) (resp : HttpResponse) (t : Nat)
    (s : Option CachedHttpResponse) :
    (persistAndReturn ctx resp t s).requests = [ctx.hdrs] := by
  unfold persistAndReturn
  split <;> rfl

theorem persistAndReturn_sleeps (ctx : FetchCtx) (resp : HttpResponse) (t : Nat)
    (s : Option CachedHttpResponse) :
    (persistAndReturn ctx resp t s).sleeps = [] := by
  unfold persistAndReturn
  split <;> rfl

theorem persistAndReturn_result (ctx : FetchCtx) (resp : HttpResponse) (t : Nat)
    (s : Option CachedHttpResponse) :
    (persistAndReturn ctx resp t s).result = .ok resp := by
  unfold persistAndReturn
  split <;> rfl

theorem persistAndReturn_writes (ctx : FetchCtx) (resp : HttpResponse) (t : Nat)
    (s : Option CachedHttpResponse) :
    (persistAndReturn ctx resp t s).writes
      = if ctx.hasCache then [.upsert (upsertEntry ctx resp t)] else [] := by
  unfold persistAndReturn
  split <;> simp_all

theorem notModifiedReturn_requests (ctx : FetchCtx) (ce : CachedHttpResponse) (t : Nat)
    (s : Option CachedHttpResponse) :
    (notModifiedReturn ctx ce t s).requests = [ctx.hdrs] := by
  unfold notModifiedReturn
  split
  · split <;> rfl
  · rfl

theorem notModifiedReturn_sleeps (ctx : FetchCtx) (ce : CachedHttpResponse) (t : Nat)
    (s : Option CachedHttpResponse) :
    (notModifiedReturn ctx ce t s).sleeps = [] := by
  unfold notModifiedReturn
  split
  · split <;> rfl
  · rfl

theorem notModifiedReturn_result (ctx : FetchCtx) (ce : CachedHttpResponse) (t : Nat)
    (s : Option CachedHttpResponse) :
    (notModifiedReturn ctx ce t s).result = .ok (_response_from_cache ce) := by
  unfold notModifiedReturn
  split
  · split <;> rfl
  · rfl

theorem notModifiedReturn_writes (ctx : FetchCtx) (ce : CachedHttpResponse) (t : Nat)
    (s : Option CachedHttpResponse) :
    (notModifiedReturn ctx ce t s).writes
      = if ctx.hasCache then
          (match s with
           | some stored => [.touch (touchedEntry ctx stored t)]
           | none => [])
        else [] := by
  unfold notModifiedReturn
  split
  · split <;> simp_all
  · simp_all

/-- Convert a failed Boolean test into an equation. -/
theorem bool_eq_false_of_ne_true {b : Bool} (h : ¬ b = true) : b = false :=
  Bool.eq_false_iff.mpr h

/-- Master behaviour of the retry loop: request count is bounded by the
remaining attempts; a further attempt happens only after a retryable
status with attempts remaining; each sleep is exactly the computed retry
delay for the response that triggered it; a raised error carries the
final response's status and the endpoint, with the rate-limited flag
exactly on 429; and every cache write is either the upsert of a
success/allowed-404 response or a touch of the stored row. -/
theorem retryLoop_spec (ctx : FetchCtx) :
    ∀ (fuel a t : Nat) (rs : List HttpResponse) (s : Option CachedHttpResponse),
      (retryLoop ctx a fuel rs t s).requests.length ≤ fuel ∧
      (∀ k, k + 1 < (retryLoop ctx a fuel rs t s).requests.length →
        ∃ r, rs.get? k = some r ∧ _is_retryable_status r.statusCode = true ∧
          a + k < ctx.max_attempts) ∧
      (∀ k d, (retryLoop ctx a fuel rs t s).sleeps.get? k = some d →
        ∃ r, rs.get? k = some r ∧ d = _compute_retry_delay_seconds r (a + k)) ∧
      (∀ rl st ep, (retryLoop ctx a fuel rs t s).result = .apiError rl st ep →
        ep = ctx.endpoint ∧ (rl = true ↔ st = 429) ∧
        ∃ n r, (retryLoop ctx a fuel rs t s).requests.length = n + 1 ∧
          rs.get? n = some r ∧ r.statusCode = st ∧
          (_is_retryable_status st = false ∨ ¬ (a + n < ctx.max_attempts))) ∧
      (∀ w ∈ (retryLoop ctx a fuel rs t s).writes, ctx.hasCache = true ∧
        ((∃ r, r ∈ rs ∧ w = .upsert (upsertEntry ctx r t) ∧
            (r.statusCode < 400 ∨ (ctx.allow_not_found = true ∧ r.statusCode = 404))) ∨
         (∃ stored, s = some stored ∧ ctx.cache_entry.isSome = true ∧
            w = .touch (touchedEntry ctx stored t)))) := by
  intro fuel
  induction fuel with
  | zero =>
    intro a t rs s
    rw [retryLoop_zero]
    refine ⟨Nat.le_refl 0, ?_, ?_, ?_, ?_⟩ <;> intros <;> simp_all
  | succ fuel' ih =>
    intro a t rs s
    cases rs with
    | nil =>
      rw [retryLoop_nil]
      refine ⟨by simp, ?_, ?_, ?_, ?_⟩ <;> intros <;> simp_all
    | cons resp rest =>
      by_cases h1 : (resp.statusCode = 304 && ctx.cache_entry.isSome) = true
      · have hparts := (Bool.and_eq_true _ _).mp h1
        have h304 : resp.statusCode = 304 := of_decide_eq_true hparts.1
        obtain ⟨ce, hce⟩ := Option.isSome_iff_exists.mp hparts.2
        rw [retryLoop_cons_notModified ctx a fuel' resp rest t s ce hce h304]
        refine ⟨?_, ?_, ?_, ?_, ?_⟩
        · rw [notModifiedReturn_requests]; simp
        · intro k hk
          rw [notModifiedReturn_requests] at hk
          simp at hk
        · intro k d hk
          rw [notModifiedReturn_sleeps] at hk
          simp at hk
        · intro rl st ep habs
          rw [notModifiedReturn_result] at habs
          exact absurd habs (by simp)
        · intro w hw
          rw [notModifiedReturn_writes] at hw
          by_cases hc : ctx.hasCache = true
          · refine ⟨hc, Or.inr ?_⟩
            rw [if_pos hc] at hw
            cases hs : s with
            | none => rw [hs] at hw; simp at hw
            | some stored =>
              rw [hs] at hw
              simp at hw
              exact ⟨stored, rfl, hparts.2, hw⟩
          · rw [if_neg hc] at hw
            simp at hw
      · have hnm := bool_eq_false_of_ne_true h1
        by_cases h2 : resp.statusCode < 400
        · rw [retryLoop_cons_success ctx a fuel' resp rest t s hnm h2]
          refine ⟨?_, ?_, ?_, ?_, ?_⟩
          · rw [persistAndReturn_requests]; simp
          · intro k hk
            rw [persistAndReturn_requests] at hk
            simp at hk
          · intro k d hk
            rw [persistAndReturn_sleeps] at hk
            simp at hk
          · intro rl st ep habs
            rw [persistAndReturn_result] at habs
            exact absurd habs (by simp)
          · intro w hw
            rw [persistAndReturn_writes] at hw
            by_cases hc : ctx.hasCache = true
            · rw [if_pos hc] at hw
              simp at hw
              exact ⟨hc, Or.inl ⟨resp, by simp, hw, Or.inl h2⟩⟩
            · rw [if_neg hc] at hw
              simp at hw
        · by_cases h3 : (ctx.allow_not_found && resp.statusCode = 404) = true
          · have hparts := (Bool.and_eq_true _ _).mp h3
            rw [retryLoop_cons_notFound ctx a fuel' resp rest t s hnm h2 h3]
            refine ⟨?_, ?_, ?_, ?_, ?_⟩
            · rw [persistAndReturn_requests]; simp
            · intro k hk
              rw [persistAndReturn_requests] at hk
              simp at hk
            · intro k d hk
              rw [persistAndReturn_sleeps] at hk
              simp at hk
            · intro rl st ep habs
              rw [persistAndReturn_result] at habs
              exact absurd habs (by simp)
            · intro w hw
              rw [persistAndReturn_writes] at hw
              by_cases hc : ctx.hasCache = true
              · rw [if_pos hc] at hw
                simp at hw
                exact ⟨hc, Or.inl ⟨resp, by simp, hw,
                  Or.inr ⟨hparts.1, of_decide_eq_true hparts.2⟩⟩⟩
              · rw [if_neg hc] at hw
                simp at hw
          · have h3f := bool_eq_false_of_ne_true h3
            by_cases h4 : (_is_retryable_status resp.statusCode
                && a < ctx.max_attempts) = true
            · have hparts := (Bool.and_eq_true _ _).mp h4
              have hlt : a < ctx.max_attempts := of_decide_eq_true hparts.2
              rw [retryLoop_cons_retry ctx a fuel' resp rest t s hnm h2 h3f h4]
              obtain ⟨ih1, ih2, ih3, ih4, ih5⟩ := ih (a + 1) t rest s
              refine ⟨?_, ?_, ?_, ?_, ?_⟩
              · simp only [List.length_cons]
                exact Nat.succ_le_succ ih1
              · intro k hk
                simp only [List.length_cons] at hk
                cases k with
                | zero => exact ⟨resp, rfl, hparts.1, by omega⟩
                | succ k' =>
                  obtain ⟨r, hr1, hr2, hr3⟩ := ih2 k' (by omega)
                  exact ⟨r, by simpa using hr1, hr2, by omega⟩
              · intro k d hk
                cases k with
                | zero =>
                  simp only [List.get?_cons_zero, Option.some.injEq] at hk
                  refine ⟨resp, rfl, ?_⟩
                  rw [Nat.add_zero, ← hk]
                | succ k' =>
                  simp only [List.get?_cons_succ] at hk
                  obtain ⟨r, hr1, hr2⟩ := ih3 k' d hk
                  refine ⟨r, by simpa using hr1, ?_⟩
                  rw [hr2]
                  congr 1
                  omega
              · intro rl st ep habs
                simp only [] at habs
                obtain ⟨he, hrl, n, r, hlen, hget, hst, hcond⟩ := ih4 rl st ep habs
                refine ⟨he, hrl, n + 1, r, ?_, by simpa using hget, hst, ?_⟩
                · simp [hlen]
                · cases hcond with
                  | inl h => exact Or.inl h
                  | inr h => exact Or.inr (by omega)
              · intro w hw
                simp only [] at hw
                obtain ⟨hc, hor⟩ := ih5 w hw
                refine ⟨hc, ?_⟩
                cases hor with
                | inl h =>
                  obtain ⟨r, hr1, hr2, hr3⟩ := h
                  exact Or.inl ⟨r, List.mem_cons_of_mem _ hr1, hr2, hr3⟩
                | inr h => exact Or.inr h
            · have h4f := bool_eq_false_of_ne_true h4
              rw [retryLoop_cons_fail ctx a fuel' resp rest t s hnm h2 h3f h4f]
              refine ⟨by simp, ?_, ?_, ?_, ?_⟩
              · intro k hk
                simp at hk
              · intro k d hk
                simp at hk
              · intro rl st ep habs
                simp only [FetchResult.apiError.injEq] at habs
                obtain ⟨hrl, hst, hep⟩ := habs
                refine ⟨hep.symm, ?_, 0, resp, by simp, rfl, hst, ?_⟩
                · rw [← hrl, ← hst]
                  simp
                · rw [← hst]
                  cases hx : _is_retryable_status resp.statusCode with
                  | false => exact Or.inl rfl
                  | true =>
                    refine Or.inr ?_
                    rw [hx, Bool.true_and] at h4f
                    simpa using of_decide_eq_false h4f
              · intro w hw
                simp at hw

/-! ## Fetch-level equations -/

theorem fetchCtx_cache_entry (cfg : CacheConfig) (hasCache : Bool) (clock : Nat → Rat)
    (endpoint : String) (accept_header : Option String) (max_attempts : Nat)
    (allow_not_found : Bool) (slot : Option CachedHttpResponse) :
    (fetchCtx cfg hasCache clock endpoint accept_header max_attempts
        allow_not_found slot).cache_entry
      = requestCacheEntry hasCache allow_not_found slot := rfl

theorem fetchCtx_hdrs (cfg : CacheConfig) (hasCache : Bool) (clock : Nat → Rat)
    (endpoint : String) (accept_header : Option String) (max_attempts : Nat)
    (allow_not_found : Bool) (slot : Option CachedHttpResponse) :
    (fetchCtx cfg hasCache clock endpoint accept_header max_attempts
        allow_not_found slot).hdrs
      = requestHeadersFor accept_header
          (requestCacheEntry hasCache allow_not_found slot) := rfl

theorem request_with_retries_entry_none (cfg : CacheConfig) (hasCache : Bool)
    (clock : Nat → Rat) (endpoint : String) (accept_header : Option String)
    (max_attempts : Nat) (allow_not_found : Bool) (slot : Option CachedHttpResponse)
    (responses : List HttpResponse)
    (h : requestCacheEntry hasCache allow_not_found slot = none) :
    _request_with_retries cfg hasCache clock endpoint accept_header max_attempts
        allow_not_found slot responses
      = retryLoop (fetchCtx cfg hasCache clock endpoint accept_header max_attempts
          allow_not_found slot) 1 max_attempts responses 1 slot := by
  unfold _request_with_retries
  simp only [fetchCtx_cache_entry, h]

theorem request_with_retries_entry_fresh (cfg : CacheConfig) (hasCache : Bool)
    (clock : Nat → Rat) (endpoint : String) (accept_header : Option String)
    (max_attempts : Nat) (allow_not_found : Bool) (slot : Option CachedHttpResponse)
    (responses : List HttpResponse) (e : CachedHttpResponse)
    (h : requestCacheEntry hasCache allow_not_found slot = some e)
    (hf : _is_fresh_cache_entry e (clock 0) = true) :
    _request_with_retries cfg hasCache clock endpoint accept_header max_attempts
        allow_not_found slot responses
      = { result := .ok (_response_from_cache e), requests := [], sleeps := [],
          writes := [], slot := slot } := by
  unfold _request_with_retries
  simp only [fetchCtx_cache_entry, h, hf, if_true]

theorem request_with_retries_entry_stale (cfg : CacheConfig) (hasCache : Bool)
    (clock : Nat → Rat) (endpoint : String) (accept_header : Option String)
    (max_attempts : Nat) (allow_not_found : Bool) (slot : Option CachedHttpResponse)
    (responses : List HttpResponse) (e : CachedHttpResponse)
    (h : requestCacheEntry hasCache allow_not_found slot = some e)
    (hf : _is_fresh_cache_entry e (clock 0) = false) :
    _request_with_retries cfg hasCache clock endpoint accept_header max_attempts
        allow_not_found slot responses
      = retryLoop (fetchCtx cfg hasCache clock endpoint accept_header max_attempts
          allow_not_found slot) 1 max_attempts responses 1 slot := by
  unfold _request_with_retries
  simp only [fetchCtx_cache_entry, h, hf]
  rfl

/-- The fetch either serves the cache or runs the retry loop. -/
theorem request_with_retries_cases (cfg : CacheConfig) (hasCache : Bool)
    (clock : Nat → Rat) (endpoint : String) (accept_header : Option String)
    (max_attempts : Nat) (allow_not_found : Bool) (slot : Option CachedHttpResponse)
    (responses : List HttpResponse) :
    (∃ e, requestCacheEntry hasCache allow_not_found slot = some e ∧
      _is_fresh_cache_entry e (clock 0) = true ∧
      _request_with_retries cfg hasCache clock endpoint accept_header max_attempts
          allow_not_found slot responses
        = { result := .ok (_response_from_cache e), requests := [], sleeps := [],
            writes := [], slot := slot }) ∨
    _request_with_retries cfg hasCache clock endpoint accept_header max_attempts
        allow_not_found slot responses
      = retryLoop (fetchCtx cfg hasCache clock endpoint accept_header max_attempts
          allow_not_found slot) 1 max_attempts responses 1 slot := by
  cases h : requestCacheEntry hasCache allow_not_found slot with
  | none =>
    exact Or.inr (request_with_retries_entry_none cfg hasCache clock endpoint
      accept_header max_attempts allow_not_found slot responses h)
  | some e =>
    cases hf : _is_fresh_cache_entry e (clock 0) with
    | true =>
      exact Or.inl ⟨e, rfl, hf, request_with_retries_entry_fresh cfg hasCache clock
        endpoint accept_header max_attempts allow_not_found slot responses e h hf⟩
    | false =>
      exact Or.inr (request_with_retries_entry_stale cfg hasCache clock endpoint
        accept_header max_attempts allow_not_found slot responses e h hf)
/-- C4: whenever the retrying fetcher fails, the raised error is typed:
it carries the endpoint and the final response's status code, and it is
the rate-limit variant exactly when that status is 429; failure happens
only on a non-retryable status or with no attempts remaining. -/
theorem c4_failure_raises_typed_error (cfg : CacheConfig) (hasCache : Bool)
    (clock : Nat → Rat) (endpoint : String) (accept_header : Option String)
    (max_attempts : Nat) (allow_not_found : Bool) (slot : Option CachedHttpResponse)
    (responses : List HttpResponse) (rl : Bool) (st : Nat) (ep : String)
    (h : (_request_with_retries cfg hasCache clock endpoint accept_header max_attempts
        allow_not_found slot responses).result = .apiError rl st ep) :
    ep = endpoint ∧ (rl = true ↔ st = 429) ∧
    ∃ n r, (_request_with_retries cfg hasCache clock endpoint accept_header max_attempts
        allow_not_found slot responses).requests.length = n + 1 ∧
      responses.get? n = some r ∧ r.statusCode = st ∧
      (_is_retryable_status st = false ∨ max_attempts ≤ n + 1) := by
  rcases request_with_retries_cases cfg hasCache clock endpoint accept_header
      max_attempts allow_not_found slot responses with ⟨e, he, hf, heq⟩ | heq
  · rw [heq] at h
    exact absurd h (by simp)
  · rw [heq] at h ⊢
    obtain ⟨hep, hrl, n, r, hlen, hget, hst, hcond⟩ :=
      ((retryLoop_spec (fetchCtx cfg hasCache clock endpoint accept_header max_attempts
        allow_not_found slot) max_attempts 1 1 responses slot).2.2.2.1) rl st ep h
    refine ⟨hep, hrl, n, r, hlen, hget, hst, ?_⟩
    have hmax : (fetchCtx cfg hasCache clock endpoint accept_header max_attempts
        allow_not_found slot).max_attempts = max_attempts := rfl
    cases hcond with
    | inl hc => exact Or.inl hc
    | inr hc =>
      rw [hmax] at hc
      exact Or.inr (by omega)

/-- Witness for C4: a single 404 without `allow_not_found` fails after one
attempt with an `ApiError` that is not rate-limited. -/
theorem c4_failure_raises_typed_error_witness :
    c3Endpoint = c3Endpoint ∧ (false = true ↔ (404 : Nat) = 429) ∧
    ∃ n r, (_request_with_retries defaultCacheConfig false zeroClock c3Endpoint none
        GITHUB_MAX_RETRIES false none [resp404]).requests.length = n + 1 ∧
      [resp404].get? n = some r ∧ r.statusCode = 404 ∧
      (_is_retryable_status 404 = false ∨ GITHUB_MAX_RETRIES ≤ n + 1) :=
  c4_failure_raises_typed_error defaultCacheConfig false zeroClock c3Endpoint none
    GITHUB_MAX_RETRIES false none [resp404] false 404 c3Endpoint rfl

/-- C3: with the default bound of 3 attempts, the fetcher makes at most 3
network attempts; a further attempt happens only after a retryable status
(429 or 5xx) with attempts remaining; the wait before retry `k+1` is
exactly the computed delay (`Retry-After` when present, parsable and
non-negative, else `0.5 * 2^(attempt-1)` seconds); and concretely: a 429
with `Retry-After: 3` waits 3 seconds and succeeds on the retry, two 502s
then a 200 wait 0.5s then 1.0s and succeed on the third attempt, and a
404 fails after exactly one attempt with zero waits. -/
theorem c3_retry_backoff_policy :
    (∀ (cfg : CacheConfig) (hasCache : Bool) (clock : Nat → Rat) (endpoint : String)
        (accept_header : Option String) (allow_not_found : Bool)
        (slot : Option CachedHttpResponse) (responses : List HttpResponse),
      (_request_with_retries cfg hasCache clock endpoint accept_header
          GITHUB_MAX_RETRIES allow_not_found slot responses).requests.length
            ≤ GITHUB_MAX_RETRIES ∧
      (∀ k, k + 1 < (_request_with_retries cfg hasCache clock endpoint accept_header
          GITHUB_MAX_RETRIES allow_not_found slot responses).requests.length →
        ∃ r, responses.get? k = some r ∧ _is_retryable_status r.statusCode = true ∧
          k + 1 < GITHUB_MAX_RETRIES) ∧
      (∀ k d, (_request_with_retries cfg hasCache clock endpoint accept_header
          GITHUB_MAX_RETRIES allow_not_found slot responses).sleeps.get? k = some d →
        ∃ r, responses.get? k = some r ∧
          d = _compute_retry_delay_seconds r (k + 1))) ∧
    ((_request_with_retries defaultCacheConfig false zeroClock c3Endpoint none
        GITHUB_MAX_RETRIES false none [resp429RA3, resp200]).result = .ok resp200 ∧
      (_request_with_retries defaultCacheConfig false zeroClock c3Endpoint none
        GITHUB_MAX_RETRIES false none [resp429RA3, resp200]).requests.length = 2 ∧
      (_request_with_retries defaultCacheConfig false zeroClock c3Endpoint none
        GITHUB_MAX_RETRIES false none [resp429RA3, resp200]).sleeps = [3]) ∧
    ((_request_with_retries defaultCacheConfig false zeroClock c3Endpoint none
        GITHUB_MAX_RETRIES false none [resp502, resp502, resp200]).result = .ok resp200 ∧
      (_request_with_retries defaultCacheConfig false zeroClock c3Endpoint none
        GITHUB_MAX_RETRIES false none [resp502, resp502, resp200]).requests.length = 3 ∧
      (_request_with_retries defaultCacheConfig false zeroClock c3Endpoint none
        GITHUB_MAX_RETRIES false none [resp502, resp502, resp200]).sleeps = [1/2, 1]) ∧
    ((_request_with_retries defaultCacheConfig false zeroClock c3Endpoint none
        GITHUB_MAX_RETRIES false none [resp404]).result
          = .apiError false 404 c3Endpoint ∧
      (_request_with_retries defaultCacheConfig false zeroClock c3Endpoint none
        GITHUB_MAX_RETRIES false none [resp404]).requests.length = 1 ∧
      (_request_with_retries defaultCacheConfig false zeroClock c3Endpoint none
        GITHUB_MAX_RETRIES false none [resp404]).sleeps = []) := by
  refine ⟨?_, ?_, ?_, ?_⟩
  · intro cfg hasCache clock endpoint accept_header allow_not_found slot responses
    rcases request_with_retries_cases cfg hasCache clock endpoint accept_header
        GITHUB_MAX_RETRIES allow_not_found slot responses with ⟨e, he, hf, heq⟩ | heq
    · rw [heq]
      refine ⟨by simp, ?_, ?_⟩ <;> intros <;> simp_all
    · rw [heq]
      obtain ⟨h1, h2, h3, h4, h5⟩ :=
        retryLoop_spec (fetchCtx cfg hasCache clock endpoint accept_header
          GITHUB_MAX_RETRIES allow_not_found slot) GITHUB_MAX_RETRIES 1 1 responses slot
      have hmax : (fetchCtx cfg hasCache clock endpoint accept_header GITHUB_MAX_RETRIES
          allow_not_found slot).max_attempts = GITHUB_MAX_RETRIES := rfl
      refine ⟨h1, ?_, ?_⟩
      · intro k hk
        obtain ⟨r, hr1, hr2, hr3⟩ := h2 k hk
        rw [hmax] at hr3
        exact ⟨r, hr1, hr2, by omega⟩
      · intro k d hk
        obtain ⟨r, hr1, hr2⟩ := h3 k d hk
        refine ⟨r, hr1, ?_⟩
        rw [hr2]
        congr 1
        omega
  · refine ⟨?_, ?_, ?_⟩ <;>
      simp [_request_with_retries, fetchCtx, requestCacheEntry, requestHeadersFor,
        retryLoop, persistAndReturn, notModifiedReturn, upsertEntry, GITHUB_MAX_RETRIES,
        _is_retryable_status, _compute_retry_delay_seconds, _parse_retry_after_seconds,
        resp429RA3, resp200, pyFloatOfString, isPyFloatSpace, isAsciiDigit, digitsVal,
        DEFAULT_RETRY_BACKOFF_SECONDS]
    all_goals norm_num
  · refine ⟨?_, ?_, ?_⟩ <;>
      simp [_request_with_retries, fetchCtx, requestCacheEntry, requestHeadersFor,
        retryLoop, persistAndReturn, notModifiedReturn, upsertEntry, GITHUB_MAX_RETRIES,
        _is_retryable_status, _compute_retry_delay_seconds, _parse_retry_after_seconds,
        resp502, resp200, pyFloatOfString, isPyFloatSpace, isAsciiDigit, digitsVal,
        DEFAULT_RETRY_BACKOFF_SECONDS]
  · refine ⟨?_, ?_, ?_⟩ <;>
      simp [_request_with_retries, fetchCtx, requestCacheEntry, requestHeadersFor,
        retryLoop, persistAndReturn, notModifiedReturn, upsertEntry, GITHUB_MAX_RETRIES,
        _is_retryable_status, _compute_retry_delay_seconds, _parse_retry_after_seconds,
        resp404, pyFloatOfString, isPyFloatSpace, isAsciiDigit, digitsVal,
        DEFAULT_RETRY_BACKOFF_SECONDS, c3Endpoint]

/-- Witness for C3's general clauses: on the 502/502/200 run the second
sleep is the exponential-backoff value for attempt 2. -/
theorem c3_retry_backoff_policy_witness :
    ∃ r, [resp502, resp502, resp200].get? 1 = some r ∧
      (1 : Rat) = _compute_retry_delay_seconds r (1 + 1) := by
  have h := (c3_retry_backoff_policy.1 defaultCacheConfig false zeroClock c3Endpoint
    none false none [resp502, resp502, resp200]).2.2 1 1
  have hs : (_request_with_retries defaultCacheConfig false zeroClock c3Endpoint none
      GITHUB_MAX_RETRIES false none [resp502, resp502, resp200]).sleeps.get? 1
        = some 1 := by
    rw [c3_retry_backoff_policy.2.2.1.2.2]
    rfl
  obtain ⟨r, hr1, hr2⟩ := h hs
  exact ⟨r, hr1, hr2⟩

/-! ## Claim C2: immutable cache hits and 304 revalidation -/

theorem requestCacheEntry_slot_none (hasCache allow_not_found : Bool) :
    requestCacheEntry hasCache allow_not_found none = none := by
  unfold requestCacheEntry
  cases hasCache <;> rfl

theorem requestCacheEntry_not404 (allow_not_found : Bool) (e : CachedHttpResponse)
    (h : e.status_code ≠ 404) :
    requestCacheEntry true allow_not_found (some e) = some e := by
  unfold requestCacheEntry
  simp [h]

/-- Every policy the classifier produces carries a TTL value. -/
theorem policy_for_endpoint_ttl_isSome (cfg : CacheConfig) (endpoint : String) :
    ∃ ttl, (policy_for_endpoint cfg endpoint).ttl_seconds = some ttl := by
  have h : ((policy_for_endpoint cfg endpoint).ttl_seconds).isSome = true := by
    simp only [policy_for_endpoint]
    split
    · split
      · split <;> rfl
      · rfl
    · rfl
  exact Option.isSome_iff_exists.mp h

theorem expires_at_not_immutable (now : Rat) (policy : CachePolicy) (ttl : Rat)
    (h1 : policy.immutable = false) (h2 : policy.ttl_seconds = some ttl) :
    _expires_at_for_policy now policy = some (now + ttl) := by
  unfold _expires_at_for_policy
  rw [h1, h2]
  rfl

theorem expires_at_immutable (now : Rat) (policy : CachePolicy)
    (h1 : policy.immutable = true) :
    _expires_at_for_policy now policy = none := by
  unfold _expires_at_for_policy
  rw [h1]
  rfl

/-- C2: (a) starting from an empty cache row, two sequential fetches of an
endpoint classified immutable issue exactly one network call — the second
is served from cache with a byte-identical body and no request; (b) when
the cached entry for a mutable endpoint is expired, the fetcher issues a
conditional GET carrying `If-None-Match` when a (truthy) ETag is cached
and the entry is not immutable, else `If-Modified-Since` when a
Last-Modified is cached, and a 304 answer yields the cached body
unchanged from exactly one network attempt while refreshing the entry's
freshness window to the policy TTL. -/
theorem c2_immutable_hit_and_conditional_revalidation
    (cfg : CacheConfig) (clock clock2 : Nat → Rat) (endpoint : String)
    (accept_header : Option String) (allow1 allow2 : Bool) :
    (∀ resp : HttpResponse,
      (policy_for_endpoint cfg endpoint).immutable = true →
      resp.statusCode < 400 →
      (_request_with_retries cfg true clock endpoint accept_header GITHUB_MAX_RETRIES
          allow1 none [resp]).requests.length = 1 ∧
      (_request_with_retries cfg true clock2 endpoint accept_header GITHUB_MAX_RETRIES
          allow2 (_request_with_retries cfg true clock endpoint accept_header
            GITHUB_MAX_RETRIES allow1 none [resp]).slot []).requests.length = 0 ∧
      (∃ r2, (_request_with_retries cfg true clock2 endpoint accept_header
          GITHUB_MAX_RETRIES allow2 (_request_with_retries cfg true clock endpoint
            accept_header GITHUB_MAX_RETRIES allow1 none [resp]).slot []).result
              = .ok r2 ∧
        r2.body = resp.body)) ∧
    (∀ (entry : CachedHttpResponse) (resp304 : HttpResponse),
      entry.immutable = false →
      entry.status_code ≠ 404 →
      _is_fresh_cache_entry entry (clock 0) = false →
      resp304.statusCode = 304 →
      (policy_for_endpoint cfg endpoint).immutable = false →
      (∀ t, optTruthy entry.etag = some t →
        (_request_with_retries cfg true clock endpoint accept_header GITHUB_MAX_RETRIES
            allow1 (some entry) [resp304]).requests
          = [{ accept := accept_header, ifNoneMatch := some t, ifModifiedSince := none }]) ∧
      (optTruthy entry.etag = none → ∀ lm, optTruthy entry.last_modified = some lm →
        (_request_with_retries cfg true clock endpoint accept_header GITHUB_MAX_RETRIES
            allow1 (some entry) [resp304]).requests
          = [{ accept := accept_header, ifNoneMatch := none, ifModifiedSince := some lm }]) ∧
      (∃ r, (_request_with_retries cfg true clock endpoint accept_header GITHUB_MAX_RETRIES
          allow1 (some entry) [resp304]).result = .ok r ∧ r.body = entry.body) ∧
      (_request_with_retries cfg true clock endpoint accept_header GITHUB_MAX_RETRIES
          allow1 (some entry) [resp304]).requests.length = 1 ∧
      (∃ ttl, (policy_for_endpoint cfg endpoint).ttl_seconds = some ttl ∧
        (_request_with_retries cfg true clock endpoint accept_header GITHUB_MAX_RETRIES
            allow1 (some entry) [resp304]).slot
          = some { entry with fetched_at := clock 1, expires_at := some (clock 2 + ttl) })) := by
  constructor
  · intro resp himm h400
    have hnone : requestCacheEntry true allow1 (none : Option CachedHttpResponse) = none :=
      requestCacheEntry_slot_none true allow1
    have heq1 : _request_with_retries cfg true clock endpoint accept_header
        GITHUB_MAX_RETRIES allow1 none [resp]
          = retryLoop (fetchCtx cfg true clock endpoint accept_header GITHUB_MAX_RETRIES
              allow1 none) 1 GITHUB_MAX_RETRIES [resp] 1 none :=
      request_with_retries_entry_none cfg true clock endpoint accept_header
        GITHUB_MAX_RETRIES allow1 none [resp] hnone
    have hnm : (resp.statusCode = 304 &&
        (fetchCtx cfg true clock endpoint accept_header GITHUB_MAX_RETRIES
          allow1 none).cache_entry.isSome) = false := by
      rw [fetchCtx_cache_entry, hnone]
      simp
    have heq2 : retryLoop (fetchCtx cfg true clock endpoint accept_header
        GITHUB_MAX_RETRIES allow1 none) 1 GITHUB_MAX_RETRIES [resp] 1 none
          = persistAndReturn (fetchCtx cfg true clock endpoint accept_header
              GITHUB_MAX_RETRIES allow1 none) resp 1 none :=
      retryLoop_cons_success _ 1 _ resp [] 1 none hnm h400
    have hhasCache : (fetchCtx cfg true clock endpoint accept_header GITHUB_MAX_RETRIES
        allow1 none).hasCache = true := rfl
    have hpersist : persistAndReturn (fetchCtx cfg true clock endpoint accept_header
        GITHUB_MAX_RETRIES allow1 none) resp 1 none
          = { result := .ok resp,
              requests := [(fetchCtx cfg true clock endpoint accept_header
                GITHUB_MAX_RETRIES allow1 none).hdrs],
              sleeps := [],
              writes := [.upsert (upsertEntry (fetchCtx cfg true clock endpoint
                accept_header GITHUB_MAX_RETRIES allow1 none) resp 1)],
              slot := some (upsertEntry (fetchCtx cfg true clock endpoint accept_header
                GITHUB_MAX_RETRIES allow1 none) resp 1) } := by
      unfold persistAndReturn
      rw [hhasCache]
      simp
    have hslot1 : (_request_with_retries cfg true clock endpoint accept_header
        GITHUB_MAX_RETRIES allow1 none [resp]).slot
          = some (upsertEntry (fetchCtx cfg true clock endpoint accept_header
              GITHUB_MAX_RETRIES allow1 none) resp 1) := by
      rw [heq1, heq2, hpersist]
    have hentry_status : (upsertEntry (fetchCtx cfg true clock endpoint accept_header
        GITHUB_MAX_RETRIES allow1 none) resp 1).status_code = resp.statusCode := rfl
    have hentry_exp : (upsertEntry (fetchCtx cfg true clock endpoint accept_header
        GITHUB_MAX_RETRIES allow1 none) resp 1).expires_at = none := by
      show _expires_at_for_policy (clock 2) (policy_for_endpoint cfg endpoint) = none
      exact expires_at_immutable _ _ himm
    have hentry_body : (upsertEntry (fetchCtx cfg true clock endpoint accept_header
        GITHUB_MAX_RETRIES allow1 none) resp 1).body = resp.body := rfl
    have hcache2 : requestCacheEntry true allow2
        (some (upsertEntry (fetchCtx cfg true clock endpoint accept_header
          GITHUB_MAX_RETRIES allow1 none) resp 1))
        = some (upsertEntry (fetchCtx cfg true clock endpoint accept_header
            GITHUB_MAX_RETRIES allow1 none) resp 1) := by
      apply requestCacheEntry_not404
      rw [hentry_status]
      omega
    have hfresh : _is_fresh_cache_entry (upsertEntry (fetchCtx cfg true clock endpoint
        accept_header GITHUB_MAX_RETRIES allow1 none) resp 1) (clock2 0) = true := by
      unfold _is_fresh_cache_entry
      rw [hentry_exp]
    have heqf : _request_with_retries cfg true clock2 endpoint accept_header
        GITHUB_MAX_RETRIES allow2 (_request_with_retries cfg true clock endpoint
          accept_header GITHUB_MAX_RETRIES allow1 none [resp]).slot []
        = { result := .ok (_response_from_cache (upsertEntry (fetchCtx cfg true clock
              endpoint accept_header GITHUB_MAX_RETRIES allow1 none) resp 1)),
            requests := [], sleeps := [], writes := [],
            slot := (_request_with_retries cfg true clock endpoint accept_header
              GITHUB_MAX_RETRIES allow1 none [resp]).slot } := by
      rw [hslot1]
      exact request_with_retries_entry_fresh cfg true clock2 endpoint accept_header
        GITHUB_MAX_RETRIES allow2 _ [] _ hcache2 hfresh
    refine ⟨?_, ?_, ?_⟩
    · rw [heq1, heq2, hpersist]
      rfl
    · rw [heqf]
      rfl
    · refine ⟨_, by rw [heqf], ?_⟩
      rfl
  · intro entry resp304 himm h404 hstale h304 hpol
    have hentry : requestCacheEntry true allow1 (some entry) = some entry :=
      requestCacheEntry_not404 allow1 entry h404
    have heq1 : _request_with_retries cfg true clock endpoint accept_header
        GITHUB_MAX_RETRIES allow1 (some entry) [resp304]
          = retryLoop (fetchCtx cfg true clock endpoint accept_header GITHUB_MAX_RETRIES
              allow1 (some entry)) 1 GITHUB_MAX_RETRIES [resp304] 1 (some entry) :=
      request_with_retries_entry_stale cfg true clock endpoint accept_header
        GITHUB_MAX_RETRIES allow1 (some entry) [resp304] entry hentry hstale
    have hce : (fetchCtx cfg true clock endpoint accept_header GITHUB_MAX_RETRIES
        allow1 (some entry)).cache_entry = some entry := by
      rw [fetchCtx_cache_entry, hentry]
    have heq2 : retryLoop (fetchCtx cfg true clock endpoint accept_header
        GITHUB_MAX_RETRIES allow1 (some entry)) 1 GITHUB_MAX_RETRIES [resp304] 1
          (some entry)
        = notModifiedReturn (fetchCtx cfg true clock endpoint accept_header
            GITHUB_MAX_RETRIES allow1 (some entry)) entry 1 (some entry) :=
      retryLoop_cons_notModified _ 1 _ resp304 [] 1 (some entry) entry hce h304
    have hnm : notModifiedReturn (fetchCtx cfg true clock endpoint accept_header
        GITHUB_MAX_RETRIES allow1 (some entry)) entry 1 (some entry)
        = { result := .ok (_response_from_cache entry),
            requests := [(fetchCtx cfg true clock endpoint accept_header
              GITHUB_MAX_RETRIES allow1 (some entry)).hdrs],
            sleeps := [],
            writes := [.touch (touchedEntry (fetchCtx cfg true clock endpoint
              accept_header GITHUB_MAX_RETRIES allow1 (some entry)) entry 1)],
            slot := some (touchedEntry (fetchCtx cfg true clock endpoint accept_header
              GITHUB_MAX_RETRIES allow1 (some entry)) entry 1) } := by
      unfold notModifiedReturn
      rfl
    obtain ⟨ttl, httl⟩ := policy_for_endpoint_ttl_isSome cfg endpoint
    have htouched : touchedEntry (fetchCtx cfg true clock endpoint accept_header
        GITHUB_MAX_RETRIES allow1 (some entry)) entry 1
          = { entry with fetched_at := clock 1, expires_at := some (clock 2 + ttl) } := by
      unfold touchedEntry
      have : _expires_at_for_policy ((fetchCtx cfg true clock endpoint accept_header
          GITHUB_MAX_RETRIES allow1 (some entry)).clock 2)
            (policy_for_endpoint (fetchCtx cfg true clock endpoint accept_header
              GITHUB_MAX_RETRIES allow1 (some entry)).cfg
              (fetchCtx cfg true clock endpoint accept_header GITHUB_MAX_RETRIES
                allow1 (some entry)).endpoint)
            = some (clock 2 + ttl) := expires_at_not_immutable _ _ ttl hpol httl
      rw [this]
      rfl
    refine ⟨?_, ?_, ?_, ?_, ?_⟩
    · intro t hetag
      rw [heq1, heq2, hnm]
      have : (fetchCtx cfg true clock endpoint accept_header GITHUB_MAX_RETRIES
          allow1 (some entry)).hdrs
            = { accept := accept_header, ifNoneMatch := some t, ifModifiedSince := none } := by
        rw [fetchCtx_hdrs, hentry]
        simp [requestHeadersFor, himm, hetag]
      rw [this]
    · intro hetag lm hlm
      rw [heq1, heq2, hnm]
      have : (fetchCtx cfg true clock endpoint accept_header GITHUB_MAX_RETRIES
          allow1 (some entry)).hdrs
            = { accept := accept_header, ifNoneMatch := none, ifModifiedSince := some lm } := by
        rw [fetchCtx_hdrs, hentry]
        simp [requestHeadersFor, himm, hetag, hlm]
      rw [this]
    · exact ⟨_, by rw [heq1, heq2, hnm], rfl⟩
    · rw [heq1, heq2, hnm]
      rfl
    · exact ⟨ttl, httl, by rw [heq1, heq2, hnm, htouched]⟩
set_option maxRecDepth 8000 in
theorem fullShaEndpoint_immutable :
    (policy_for_endpoint defaultCacheConfig fullShaEndpoint).immutable = true := by
  simp [policy_for_endpoint, defaultCacheConfig, fullShaEndpoint,
    urlsplitPathQuery, stripScheme, stripNetloc, splitAtFirst, listIsInfixOf,
    contentsSegment, qsFirstValue, qsFirstValueGo, splitOnChar, decodeQsComponent,
    unquoteChars, refKey, commitShaFullmatch, isHexLowerDigit]

theorem c3Endpoint_not_immutable :
    (policy_for_endpoint defaultCacheConfig c3Endpoint).immutable = false := by
  simp [policy_for_endpoint, defaultCacheConfig, c3Endpoint,
    urlsplitPathQuery, stripScheme, stripNetloc, splitAtFirst, listIsInfixOf,
    contentsSegment, qsFirstValue, qsFirstValueGo, splitOnChar, decodeQsComponent,
    unquoteChars, refKey, commitShaFullmatch, isHexLowerDigit]

theorem c2StaleEntry_stale :
    _is_fresh_cache_entry c2StaleEntry (zeroClock 0) = false := by
  simp [_is_fresh_cache_entry, c2StaleEntry, zeroClock]

/-- Witness for C2: the immutable two-fetch scenario issues one network
call then none, and the expired-entry 304 scenario issues exactly the
conditional request carrying the cached ETag. -/
theorem c2_immutable_hit_and_conditional_revalidation_witness :
    (_request_with_retries defaultCacheConfig true zeroClock fullShaEndpoint none
        GITHUB_MAX_RETRIES false none [resp200]).requests.length = 1 ∧
    (_request_with_retries defaultCacheConfig true zeroClock fullShaEndpoint none
        GITHUB_MAX_RETRIES false
        (_request_with_retries defaultCacheConfig true zeroClock fullShaEndpoint none
          GITHUB_MAX_RETRIES false none [resp200]).slot []).requests.length = 0 ∧
    (_request_with_retries defaultCacheConfig true zeroClock c3Endpoint none
        GITHUB_MAX_RETRIES false (some c2StaleEntry) [resp304Sample]).requests
      = [{ accept := none, ifNoneMatch := some eTagSample, ifModifiedSince := none }] := by
  have ha := (c2_immutable_hit_and_conditional_revalidation defaultCacheConfig zeroClock
    zeroClock fullShaEndpoint none false false).1 resp200 fullShaEndpoint_immutable
    (by decide)
  have hb := (c2_immutable_hit_and_conditional_revalidation defaultCacheConfig zeroClock
    zeroClock c3Endpoint none false false).2 c2StaleEntry resp304Sample rfl
    (by decide) c2StaleEntry_stale rfl c3Endpoint_not_immutable
  exact ⟨ha.1, ha.2.1, hb.1 eTagSample (by decide)⟩


/-! ## Claims C8 and C9: cache write invariants and 404 policy -/

theorem requestCacheEntry_isSome_of_404 (hasCache allow_not_found : Bool)
    (e : CachedHttpResponse) (hsome : (requestCacheEntry hasCache allow_not_found
      (some e)).isSome = true) (h404 : e.status_code = 404) :
    allow_not_found = true := by
  cases allow_not_found with
  | true => rfl
  | false =>
    exfalso
    unfold requestCacheEntry at hsome
    cases hasCache with
    | false => simp at hsome
    | true => simp [h404] at hsome

theorem requestCacheEntry_404_disallowed (hasCache : Bool) (e : CachedHttpResponse)
    (h404 : e.status_code = 404) :
    requestCacheEntry hasCache false (some e) = none := by
  unfold requestCacheEntry
  cases hasCache with
  | false => rfl
  | true => simp [h404]

/-- Every branch of one loop iteration answers the first request with the
context's headers. -/
theorem retryLoop_requests_head (ctx : FetchCtx) (a fuel' : Nat) (resp : HttpResponse)
    (rest : List HttpResponse) (t : Nat) (s : Option CachedHttpResponse) :
    (retryLoop ctx a (fuel' + 1) (resp :: rest) t s).requests.get? 0 = some ctx.hdrs := by
  by_cases h1 : (resp.statusCode = 304 && ctx.cache_entry.isSome) = true
  · have hparts := (Bool.and_eq_true _ _).mp h1
    obtain ⟨ce, hce⟩ := Option.isSome_iff_exists.mp hparts.2
    rw [retryLoop_cons_notModified ctx a fuel' resp rest t s ce hce
      (of_decide_eq_true hparts.1), notModifiedReturn_requests]
    rfl
  · have hnm := bool_eq_false_of_ne_true h1
    by_cases h2 : resp.statusCode < 400
    · rw [retryLoop_cons_success ctx a fuel' resp rest t s hnm h2,
        persistAndReturn_requests]
      rfl
    · by_cases h3 : (ctx.allow_not_found && resp.statusCode = 404) = true
      · rw [retryLoop_cons_notFound ctx a fuel' resp rest t s hnm h2 h3,
          persistAndReturn_requests]
        rfl
      · have h3f := bool_eq_false_of_ne_true h3
        by_cases h4 : (_is_retryable_status resp.statusCode && a < ctx.max_attempts) = true
        · rw [retryLoop_cons_retry ctx a fuel' resp rest t s hnm h2 h3f h4]
          rfl
        · rw [retryLoop_cons_fail ctx a fuel' resp rest t s hnm h2 h3f
            (bool_eq_false_of_ne_true h4)]
          rfl

/-- C8: every cache entry written by the fetcher satisfies the invariant:
an immutable entry carries no expiry (it is evicted only explicitly), and
a mutable entry's expiry is its fetch time plus the endpoint policy's TTL
at write time.  The clock hypothesis states that the consecutive
`time.time()` reads within one write observe the same instant; the slot
hypothesis states that a pre-existing row's immutable flag agrees with
the endpoint's policy (as every row written by this fetcher does).  Both
fresh upserts and 304 revalidation touches are covered. -/
theorem c8_cache_write_invariant (cfg : CacheConfig) (hasCache : Bool)
    (clock : Nat → Rat) (endpoint : String) (accept_header : Option String)
    (max_attempts : Nat) (allow_not_found : Bool) (slot : Option CachedHttpResponse)
    (responses : List HttpResponse)
    (hclock : ∀ i, clock i = clock 0)
    (hslot : ∀ e, slot = some e →
      e.immutable = (policy_for_endpoint cfg endpoint).immutable) :
    ∀ w ∈ (_request_with_retries cfg hasCache clock endpoint accept_header max_attempts
        allow_not_found slot responses).writes,
      (w.entry.immutable = true → w.entry.expires_at = none) ∧
      (w.entry.immutable = false →
        ∃ ttl, (policy_for_endpoint cfg endpoint).ttl_seconds = some ttl ∧
          w.entry.expires_at = some (w.entry.fetched_at + ttl)) := by
  intro w hw
  rcases request_with_retries_cases cfg hasCache clock endpoint accept_header
      max_attempts allow_not_found slot responses with ⟨e, he, hf, heq⟩ | heq
  · rw [heq] at hw
    simp at hw
  · rw [heq] at hw
    obtain ⟨hc, hor⟩ := ((retryLoop_spec (fetchCtx cfg hasCache clock endpoint
      accept_header max_attempts allow_not_found slot) max_attempts 1 1 responses
      slot).2.2.2.2) w hw
    cases hor with
    | inl hup =>
      obtain ⟨r, hmem, hwe, hcond⟩ := hup
      rw [hwe]
      constructor
      · intro him
        show _expires_at_for_policy (clock 2) (policy_for_endpoint cfg endpoint) = none
        exact expires_at_immutable _ _ him
      · intro him
        have hpf : (policy_for_endpoint cfg endpoint).immutable = false := him
        obtain ⟨ttl, httl⟩ := policy_for_endpoint_ttl_isSome cfg endpoint
        refine ⟨ttl, httl, ?_⟩
        show _expires_at_for_policy (clock 2) (policy_for_endpoint cfg endpoint)
          = some (clock 1 + ttl)
        rw [expires_at_not_immutable (clock 2) _ ttl hpf httl, hclock 2, hclock 1]
    | inr htouch =>
      obtain ⟨stored, hs, hcse, hwe⟩ := htouch
      have hstim : stored.immutable = (policy_for_endpoint cfg endpoint).immutable :=
        hslot stored hs
      rw [hwe]
      constructor
      · intro him
        show _expires_at_for_policy (clock 2) (policy_for_endpoint cfg endpoint) = none
        apply expires_at_immutable
        rw [← hstim]
        exact him
      · intro him
        obtain ⟨ttl, httl⟩ := policy_for_endpoint_ttl_isSome cfg endpoint
        refine ⟨ttl, httl, ?_⟩
        show _expires_at_for_policy (clock 2) (policy_for_endpoint cfg endpoint)
          = some (clock 1 + ttl)
        have hpf : (policy_for_endpoint cfg endpoint).immutable = false := by
          rw [← hstim]
          exact him
        rw [expires_at_not_immutable (clock 2) _ ttl hpf httl, hclock 2, hclock 1]

/-- Witness for C8: the upsert performed by a first fetch of an
immutable-content endpoint satisfies the invariant (no expiry). -/
theorem c8_cache_write_invariant_witness :
    (c8SampleWrite.entry.immutable = true → c8SampleWrite.entry.expires_at = none) ∧
    (c8SampleWrite.entry.immutable = false →
      ∃ ttl, (policy_for_endpoint defaultCacheConfig fullShaEndpoint).ttl_seconds
          = some ttl ∧
        c8SampleWrite.entry.expires_at
          = some (c8SampleWrite.entry.fetched_at + ttl)) := by
  have hnone : requestCacheEntry true false (none : Option CachedHttpResponse) = none :=
    requestCacheEntry_slot_none true false
  have heq1 := request_with_retries_entry_none defaultCacheConfig true zeroClock
    fullShaEndpoint none GITHUB_MAX_RETRIES false none [resp200] hnone
  have hnm : (resp200.statusCode = 304 && (fetchCtx defaultCacheConfig true zeroClock
      fullShaEndpoint none GITHUB_MAX_RETRIES false none).cache_entry.isSome) = false := by
    rw [fetchCtx_cache_entry, hnone]
    simp
  have heq2 := retryLoop_cons_success (fetchCtx defaultCacheConfig true zeroClock
    fullShaEndpoint none GITHUB_MAX_RETRIES false none) 1 2 resp200 [] 1 none hnm
    (by decide)
  have hmem : c8SampleWrite ∈ (_request_with_retries defaultCacheConfig true zeroClock
      fullShaEndpoint none GITHUB_MAX_RETRIES false none [resp200]).writes := by
    rw [heq1]
    show c8SampleWrite ∈ (retryLoop (fetchCtx defaultCacheConfig true zeroClock
      fullShaEndpoint none GITHUB_MAX_RETRIES false none) 1 (2 + 1) [resp200] 1
      none).writes
    rw [heq2, persistAndReturn_writes]
    show c8SampleWrite ∈ [c8SampleWrite]
    exact List.mem_singleton.mpr rfl
  exact c8_cache_write_invariant defaultCacheConfig true zeroClock fullShaEndpoint none
    GITHUB_MAX_RETRIES false none [resp200] (fun _ => rfl)
    (fun e h => by simp at h) c8SampleWrite hmem

/-- C9: a 404 response is written to the cache only when `allow_not_found`
is set (hence never persisted for mutable references without it, and a
fortiori the write implies immutable-or-allowed); and a cached 404 marker
is disregarded when `allow_not_found` is off: the fetcher issues a
network request with no conditional headers instead of serving it. -/
theorem c9_404_caching_policy (cfg : CacheConfig) (hasCache : Bool)
    (clock : Nat → Rat) (endpoint : String) (accept_header : Option String)
    (max_attempts : Nat) (allow_not_found : Bool) (slot : Option CachedHttpResponse)
    (responses : List HttpResponse) :
    (∀ w ∈ (_request_with_retries cfg hasCache clock endpoint accept_header max_attempts
        allow_not_found slot responses).writes,
      w.entry.status_code = 404 → allow_not_found = true) ∧
    (∀ w ∈ (_request_with_retries cfg hasCache clock endpoint accept_header max_attempts
        allow_not_found slot responses).writes,
      w.entry.status_code = 404 →
        ((policy_for_endpoint cfg endpoint).immutable = true ∨ allow_not_found = true)) ∧
    (∀ e, slot = some e → e.status_code = 404 → allow_not_found = false →
      ∀ r rest, responses = r :: rest → 1 ≤ max_attempts →
      (_request_with_retries cfg hasCache clock endpoint accept_header max_attempts
          allow_not_found slot responses).requests.get? 0
        = some { accept := accept_header, ifNoneMatch := none, ifModifiedSince := none } ∧
      (_request_with_retries cfg hasCache clock endpoint accept_header max_attempts
          allow_not_found slot responses).requests ≠ []) := by
  have main : ∀ w ∈ (_request_with_retries cfg hasCache clock endpoint accept_header
      max_attempts allow_not_found slot responses).writes,
      w.entry.status_code = 404 → allow_not_found = true := by
    intro w hw h404
    rcases request_with_retries_cases cfg hasCache clock endpoint accept_header
        max_attempts allow_not_found slot responses with ⟨e, he, hf, heq⟩ | heq
    · rw [heq] at hw
      simp at hw
    · rw [heq] at hw
      obtain ⟨hc, hor⟩ := ((retryLoop_spec (fetchCtx cfg hasCache clock endpoint
        accept_header max_attempts allow_not_found slot) max_attempts 1 1 responses
        slot).2.2.2.2) w hw
      cases hor with
      | inl hup =>
        obtain ⟨r, hmem, hwe, hcond⟩ := hup
        rw [hwe] at h404
        have hst : r.statusCode = 404 := h404
        cases hcond with
        | inl hlt =>
          exfalso
          rw [hst] at hlt
          omega
        | inr hok => exact hok.1
      | inr htouch =>
        obtain ⟨stored, hs, hcse, hwe⟩ := htouch
        rw [hwe] at h404
        have hst : stored.status_code = 404 := h404
        rw [fetchCtx_cache_entry, hs] at hcse
        exact requestCacheEntry_isSome_of_404 hasCache allow_not_found stored hcse hst
  refine ⟨main, fun w hw h404 => Or.inr (main w hw h404), ?_⟩
  intro e hs h404 hallow r rest hresp hmax
  have hnone : requestCacheEntry hasCache allow_not_found slot = none := by
    rw [hs, hallow]
    exact requestCacheEntry_404_disallowed hasCache e h404
  have heq := request_with_retries_entry_none cfg hasCache clock endpoint accept_header
    max_attempts allow_not_found slot responses hnone
  have hhdrs : (fetchCtx cfg hasCache clock endpoint accept_header max_attempts
      allow_not_found slot).hdrs
        = { accept := accept_header, ifNoneMatch := none, ifModifiedSince := none } := by
    rw [fetchCtx_hdrs, hnone]
    rfl
  obtain ⟨fuel', hfuel⟩ : ∃ fuel', max_attempts = fuel' + 1 :=
    ⟨max_attempts - 1, by omega⟩
  have hhead : (_request_with_retries cfg hasCache clock endpoint accept_header
      max_attempts allow_not_found slot responses).requests.get? 0
        = some (fetchCtx cfg hasCache clock endpoint accept_header max_attempts
            allow_not_found slot).hdrs := by
    rw [heq, hresp]
    conv_lhs => rw [hfuel]
    exact retryLoop_requests_head _ 1 fuel' r rest 1 slot
  refine ⟨by rw [hhead, hhdrs], ?_⟩
  intro hnil
  rw [hnil] at hhead
  simp at hhead

/-- Witness for C9: with a cached 404 marker and `allow_not_found` off the
fetcher goes to the network with plain headers. -/
theorem c9_404_caching_policy_witness :
    (_request_with_retries defaultCacheConfig true zeroClock c3Endpoint none
        GITHUB_MAX_RETRIES false (some c9Entry404) [resp200]).requests.get? 0
      = some { accept := none, ifNoneMatch := none, ifModifiedSince := none } ∧
    (_request_with_retries defaultCacheConfig true zeroClock c3Endpoint none
        GITHUB_MAX_RETRIES false (some c9Entry404) [resp200]).requests ≠ [] :=
  (c9_404_caching_policy defaultCacheConfig true zeroClock c3Endpoint none
    GITHUB_MAX_RETRIES false (some c9Entry404) [resp200]).2.2 c9Entry404 rfl rfl rfl
    resp200 [] rfl (by decide)

/-! ## Theorems for claim C1 -/

/-- C1 counterexample: on `shortShaEndpoint` the code returns the
immutable policy while the claim's classification (immutable only at a
full-length commit id) returns the branch-content policy, so the claim as
stated is false on the code. -/
theorem c1_policy_counterexample :
    policy_for_endpoint defaultCacheConfig shortShaEndpoint
        = { ttl_seconds := some DEFAULT_IMMUTABLE_CONTENT_TTL_SECONDS, immutable := true } ∧
    claimPolicyForEndpoint defaultCacheConfig shortShaEndpoint
        = { ttl_seconds := some DEFAULT_BRANCH_CONTENT_TTL_SECONDS, immutable := false } ∧
    policy_for_endpoint defaultCacheConfig shortShaEndpoint
        ≠ claimPolicyForEndpoint defaultCacheConfig shortShaEndpoint := by
  refine ⟨?_, ?_, ?_⟩ <;>
    simp [policy_for_endpoint, claimPolicyForEndpoint, shortShaEndpoint, defaultCacheConfig,
      urlsplitPathQuery, stripScheme, stripNetloc, splitAtFirst, listIsInfixOf,
      contentsSegment, qsFirstValue, qsFirstValueGo, splitOnChar, decodeQsComponent,
      unquoteChars, refKey, commitShaFullmatch, isHexLowerDigit,
      DEFAULT_IMMUTABLE_CONTENT_TTL_SECONDS, DEFAULT_BRANCH_CONTENT_TTL_SECONDS]

/-- Boolean bridge: the regex `^[a-f0-9]{7,40}$` (with the source's
nonemptiness guard, subsumed by the length bound) agrees with the amended
claim's condition. -/
theorem commitSha_cond_eq (ref : String) :
    (decide (ref ≠ "") && commitShaFullmatch ref)
      = (7 ≤ ref.data.length && ref.data.length ≤ 40 && ref.data.all isHexLowerDigit) := by
  have hempty : (ref = "") ↔ (ref.data = []) := by
    constructor
    · intro h
      rw [h]
    · intro h
      apply String.ext
      rw [h]
  rw [Bool.eq_iff_iff]
  simp only [Bool.and_eq_true, decide_eq_true_eq, commitShaFullmatch]
  constructor
  · rintro ⟨-, ⟨hall, h7⟩, h40⟩
    exact ⟨⟨h7, h40⟩, hall⟩
  · rintro ⟨⟨h7, h40⟩, hall⟩
    refine ⟨?_, ⟨hall, h7⟩, h40⟩
    intro he
    rw [hempty] at he
    rw [he] at h7
    simp at h7

/-- C1 (amended): for every cache configuration and endpoint string, the
code's `policy_for_endpoint` realises exactly the amended classification
(immutable at a 7-to-40-digit hex commit id ref on a contents path;
branch-content TTL at any other contents ref; mutable TTL elsewhere), and
an immutable classification never expires: any expiry computed for it is
absent. -/
theorem c1_policy_for_endpoint_amended (cfg : CacheConfig) (endpoint : String) :
    policy_for_endpoint cfg endpoint = amendedPolicyForEndpoint cfg endpoint ∧
    ((policy_for_endpoint cfg endpoint).immutable = true →
      ∀ now : Rat, _expires_at_for_policy now (policy_for_endpoint cfg endpoint) = none) := by
  constructor
  · unfold policy_for_endpoint amendedPolicyForEndpoint
    simp only [commitSha_cond_eq]
  · intro himm now
    simp [_expires_at_for_policy, himm]

set_option maxRecDepth 8000 in
/-- Witness for the hypothesis-bearing part of C1: at a full-length
commit-id contents endpoint the computed policy is immutable and yields
no expiry. -/
theorem c1_policy_for_endpoint_amended_witness :
    (policy_for_endpoint defaultCacheConfig fullShaEndpoint).immutable = true ∧
    _expires_at_for_policy 0 (policy_for_endpoint defaultCacheConfig fullShaEndpoint) = none := by
  have himm : (policy_for_endpoint defaultCacheConfig fullShaEndpoint).immutable = true := by
    simp [policy_for_endpoint, defaultCacheConfig, fullShaEndpoint,
      urlsplitPathQuery, stripScheme, stripNetloc, splitAtFirst, listIsInfixOf,
      contentsSegment, qsFirstValue, qsFirstValueGo, splitOnChar, decodeQsComponent,
      unquoteChars, refKey, commitShaFullmatch, isHexLowerDigit]
  exact ⟨himm,
    (c1_policy_for_endpoint_amended defaultCacheConfig fullShaEndpoint).2 himm 0⟩

/-! ## Theorems for claim C10 -/

/-- C10: for every JSON payload and key, the required-integer decoder
raises the typed malformed-response error when the field's value is a
JSON boolean (Python `bool` being a subclass of `int` notwithstanding);
and concretely, a files-listing row whose `additions` field is a boolean
is rejected by the row decoder. -/
theorem c10_require_int_rejects_bool :
    (∀ (payload : List (String × JsonValue)) (key endpoint : String) (b : Bool),
      jsonGet payload key = some (.bool b) →
      _require_int payload key endpoint
        = .error (.apiError ("Expected integer field '" ++ key ++ "' in GitHub response.")
            500 endpoint)) ∧
    decodePullRequestFileRow c10Endpoint c10BoolRow
      = .error (.apiError
          ("Expected integer field '" ++ additionsKey ++ "' in GitHub response.")
          500 c10Endpoint) := by
  constructor
  · intro payload key endpoint b h
    unfold _require_int
    rw [h]
  · simp [decodePullRequestFileRow, c10BoolRow, c10Endpoint, _require_str, _require_int,
      jsonGet, filenameKey, statusKey, patchKey, previousFilenameKey, additionsKey,
      deletionsKey, changesKey, Bind.bind, Except.bind, Pure.pure, Except.pure]

/-- Witness for C10: the general rejection applied at a concrete payload
binding the additions counter to the boolean `true`. -/
theorem c10_require_int_rejects_bool_witness :
    _require_int [(additionsKey, JsonValue.bool true)] additionsKey c10Endpoint
      = .error (.apiError
          ("Expected integer field '" ++ additionsKey ++ "' in GitHub response.")
          500 c10Endpoint) :=
  c10_require_int_rejects_bool.1 [(additionsKey, JsonValue.bool true)] additionsKey
    c10Endpoint true rfl

/-! ## Theorems for claim C7 -/

/-- Nonempty-on-the-left string appends are nonempty. -/
theorem append_ne_empty_left (s t : String) (h : s.data ≠ []) : s ++ t ≠ "" := by
  intro he
  have hd : (s ++ t).data = [] := by rw [he]
  rw [String.data_append] at hd
  exact h (List.append_eq_nil.mp hd).1

theorem addedBaseWarning_ne_empty (path : String) : addedBaseWarning path ≠ "" := by
  unfold addedBaseWarning
  rw [String.append_assoc]
  exact append_ne_empty_left _ _ (by decide)

theorem renamedFallbackWarning_ne_empty (path : String) :
    renamedFallbackWarning path ≠ "" := by
  unfold renamedFallbackWarning
  rw [String.append_assoc, String.append_assoc]
  exact append_ne_empty_left _ _ (by decide)

/-- Per-side warnings are appended, so prior warnings survive. -/
theorem mem_appendContentWarning (a : String) (l : List String) (c : FileContentAtRef)
    (h : a ∈ l) : a ∈ appendContentWarning l c := by
  unfold appendContentWarning
  cases optTruthy c.warning <;> simp [h]

/-- C7: a file with status `added` issues no base fetch (its only fetch is
the head one), its base record is the absent marker, and its warnings
mention absence at base; a file with status `renamed` and no recorded
previous path falls back to the current path for the base fetch and emits
the fallback warning. -/
theorem c7_resolver_added_and_renamed_fallback
    (fetcher : String → String → FileContentAtRef)
    (base_sha head_sha : String) (f : PullRequestFile) :
    (f.status = addedStatus →
      (resolve_pull_request_file_content fetcher base_sha head_sha f).fetches
          = [(f.path, head_sha)] ∧
      (resolve_pull_request_file_content fetcher base_sha head_sha f).content.base
          = _build_missing_content base_sha f.path (addedBaseWarning f.path) ∧
      addedBaseWarning f.path ∈
        (resolve_pull_request_file_content fetcher base_sha head_sha f).content.warnings) ∧
    (f.status = renamedStatus → f.previous_filename = none →
      (resolve_pull_request_file_content fetcher base_sha head_sha f).fetches
          = [(f.path, base_sha), (f.path, head_sha)] ∧
      renamedFallbackWarning f.path ∈
        (resolve_pull_request_file_content fetcher base_sha head_sha f).content.warnings) := by
  constructor
  · intro hst
    unfold resolve_pull_request_file_content
    simp only [hst, if_pos rfl]
    refine ⟨rfl, rfl, ?_⟩
    apply mem_appendContentWarning
    show _ ∈ appendContentWarning [] (_build_missing_content base_sha f.path _)
    unfold appendContentWarning _build_missing_content optTruthy
    simp [addedBaseWarning_ne_empty f.path]
  · intro hst hprev
    unfold resolve_pull_request_file_content
    have hne1 : f.status ≠ addedStatus := by rw [hst]; decide
    have hne2 : f.status ≠ removedStatus := by rw [hst]; decide
    simp only [hst, hprev, if_neg hne1, if_neg hne2, if_pos rfl]
    refine ⟨rfl, ?_⟩
    apply mem_appendContentWarning
    apply mem_appendContentWarning
    exact List.mem_singleton.mpr rfl

/-- Witness for C7: both parts applied at concrete files and a concrete
fetch oracle. -/
theorem c7_resolver_added_and_renamed_fallback_witness :
    ((resolve_pull_request_file_content (fun _ _ => c7SampleContent) c7BaseSha c7HeadSha
        c7AddedFile).fetches = [(c7AddedFile.path, c7HeadSha)] ∧
      addedBaseWarning c7AddedFile.path ∈
        (resolve_pull_request_file_content (fun _ _ => c7SampleContent) c7BaseSha c7HeadSha
          c7AddedFile).content.warnings) ∧
    ((resolve_pull_request_file_content (fun _ _ => c7SampleContent) c7BaseSha c7HeadSha
        c7RenamedFile).fetches
          = [(c7RenamedFile.path, c7BaseSha), (c7RenamedFile.path, c7HeadSha)] ∧
      renamedFallbackWarning c7RenamedFile.path ∈
        (resolve_pull_request_file_content (fun _ _ => c7SampleContent) c7BaseSha c7HeadSha
          c7RenamedFile).content.warnings) := by
  have hadded := (c7_resolver_added_and_renamed_fallback (fun _ _ => c7SampleContent)
    c7BaseSha c7HeadSha c7AddedFile).1 rfl
  have hren := (c7_resolver_added_and_renamed_fallback (fun _ _ => c7SampleContent)
    c7BaseSha c7HeadSha c7RenamedFile).2 rfl rfl
  exact ⟨⟨hadded.1, hadded.2.2⟩, hren⟩

/-! ## Claim C6: pagination -/

theorem decodeRowsList_length (endpoint : String) :
    ∀ (objs : List (List (String × JsonValue))) (files : List PullRequestFile),
      decodeRowsList endpoint objs = .ok files → files.length = objs.length := by
  intro objs
  induction objs with
  | nil =>
    intro files h
    simp only [decodeRowsList] at h
    cases h
    rfl
  | cons row rest ih =>
    intro files h
    simp only [decodeRowsList] at h
    cases hf : decodePullRequestFileRow endpoint row with
    | error e =>
      rw [hf] at h
      exact absurd h (by simp [Bind.bind, Except.bind])
    | ok f =>
      rw [hf] at h
      cases hr : decodeRowsList endpoint rest with
      | error e =>
        rw [hr] at h
        exact absurd h (by simp [Bind.bind, Except.bind])
      | ok fs =>
        rw [hr] at h
        simp [Bind.bind, Except.bind, Pure.pure, Except.pure] at h
        rw [← h]
        simp [ih fs hr]

theorem ensureObjRows_length (endpoint : String) :
    ∀ (rows : List JsonValue) (objs : List (List (String × JsonValue))),
      ensureObjRows endpoint rows = .ok objs → objs.length = rows.length := by
  intro rows
  induction rows with
  | nil =>
    intro objs h
    simp only [ensureObjRows] at h
    cases h
    rfl
  | cons row rest ih =>
    intro objs h
    cases row <;> simp only [ensureObjRows] at h <;>
      try exact absurd h (by simp)
    case obj fields =>
      cases hr : ensureObjRows endpoint rest with
      | error e =>
        rw [hr] at h
        exact absurd h (by simp [Except.map])
      | ok objs' =>
        rw [hr] at h
        simp [Except.map] at h
        rw [← h]
        simp [ih objs' hr]

theorem decodeRowsPage_length (endpoint : String) (rows : List JsonValue)
    (files : List PullRequestFile) (h : decodeRowsPage endpoint rows = .ok files) :
    files.length = rows.length := by
  unfold decodeRowsPage at h
  cases ho : ensureObjRows endpoint rows with
  | error e =>
    rw [ho] at h
    exact absurd h (by simp [Bind.bind, Except.bind])
  | ok objs =>
    rw [ho] at h
    simp only [Bind.bind, Except.bind] at h
    rw [decodeRowsList_length endpoint objs files h]
    exact ensureObjRows_length endpoint rows objs ho

/-- Pagination over full pages of 100 rows and a final page of `K ≤ 100`
rows: the loop decodes every page in order and stops after the final
page, producing the concatenation of the per-page results. -/
theorem fetchFilesPages_spec (base_endpoint : String) :
    ∀ (fullPages : List (List JsonValue)) (lastPage : List JsonValue) (page : Nat),
      (∀ pg ∈ fullPages, pg.length = perPageLiteral) →
      1 ≤ lastPage.length → lastPage.length ≤ perPageLiteral →
      (∀ i pg, (fullPages ++ [lastPage]).get? i = some pg →
        ∃ fs, decodeRowsPage (filesPageEndpoint base_endpoint (page + i)) pg = .ok fs) →
      ∃ (files : List PullRequestFile) (decodedPages : List (List PullRequestFile)),
        fetchFilesPages base_endpoint page (fullPages ++ [lastPage]) = .ok files ∧
        files.length = perPageLiteral * fullPages.length + lastPage.length ∧
        decodedPages.length = fullPages.length + 1 ∧
        (∀ i pg, (fullPages ++ [lastPage]).get? i = some pg →
          ∃ fs, decodedPages.get? i = some fs ∧
            decodeRowsPage (filesPageEndpoint base_endpoint (page + i)) pg = .ok fs) ∧
        files = decodedPages.flatten := by
  intro fullPages
  induction fullPages with
  | nil =>
    intro lastPage page hfull hK1 hK2 hdec
    obtain ⟨fs, hfs⟩ := hdec 0 lastPage (by simp)
    have hlen : fs.length = lastPage.length :=
      decodeRowsPage_length _ _ _ (by simpa using hfs)
    have hne : lastPage.isEmpty = false := by
      cases lastPage with
      | nil => simp at hK1
      | cons a as => rfl
    by_cases hK100 : lastPage.length < perPageLiteral
    · refine ⟨fs, [fs], ?_, by simpa using hlen, rfl, ?_, by simp⟩
      · simp only [List.nil_append, fetchFilesPages, hne, Bool.false_eq_true, if_neg]
        rw [show page + 0 = page from rfl] at hfs
        rw [hfs]
        simp [Bind.bind, Except.bind, hK100, Pure.pure, Except.pure]
      · intro i pg hi
        cases i with
        | zero =>
          simp at hi
          subst hi
          exact ⟨fs, rfl, by simpa using hfs⟩
        | succ n => simp at hi
    · have hK100' : lastPage.length = perPageLiteral := by omega
      refine ⟨fs ++ [], [fs], ?_, by simp [hlen, hK100'], rfl, ?_, by simp⟩
      · simp only [List.nil_append, fetchFilesPages, hne, Bool.false_eq_true, if_neg]
        rw [show page + 0 = page from rfl] at hfs
        rw [hfs]
        simp only [Bind.bind, Except.bind, hK100, if_neg, fetchFilesPages]
        simp [Pure.pure, Except.pure]
      · intro i pg hi
        cases i with
        | zero =>
          simp at hi
          subst hi
          exact ⟨fs, rfl, by simpa using hfs⟩
        | succ n => simp at hi
  | cons pg0 fullRest ih =>
    intro lastPage page hfull hK1 hK2 hdec
    have hpg0len : pg0.length = perPageLiteral := hfull pg0 (by simp)
    obtain ⟨fs0, hfs0⟩ := hdec 0 pg0 (by simp)
    have hlen0 : fs0.length = pg0.length :=
      decodeRowsPage_length _ _ _ (by simpa using hfs0)
    have hne : pg0.isEmpty = false := by
      cases pg0 with
      | nil => simp [perPageLiteral] at hpg0len
      | cons a as => rfl
    obtain ⟨files', decoded', heq', hlen', hdlen', hdec', hjoin'⟩ :=
      ih lastPage (page + 1) (fun p hp => hfull p (by simp [hp]))
        hK1 hK2 (fun i p hp => by
          have := hdec (i + 1) p (by simpa using hp)
          rwa [show page + (i + 1) = page + 1 + i by omega] at this)
    refine ⟨fs0 ++ files', fs0 :: decoded', ?_, ?_, by simp [hdlen'], ?_, by simp [hjoin']⟩
    · show fetchFilesPages base_endpoint page (pg0 :: (fullRest ++ [lastPage])) = _
      simp only [fetchFilesPages, hne, Bool.false_eq_true, if_neg]
      rw [show page + 0 = page from rfl] at hfs0
      rw [hfs0]
      have hnotlt : ¬ pg0.length < perPageLiteral := by omega
      simp only [Bind.bind, Except.bind, hnotlt, if_neg, if_false]
      rw [heq']
      simp [Pure.pure, Except.pure]
    · simp only [List.length_append, hlen', List.length_cons]
      rw [hlen0, hpg0len]
      ring
    · intro i p hp
      cases i with
      | zero =>
        simp at hp
        subst hp
        exact ⟨fs0, rfl, by simpa using hfs0⟩
      | succ n =>
        simp only [List.cons_append, List.get?_cons_succ] at hp
        obtain ⟨fs, h1, h2⟩ := hdec' n p hp
        refine ⟨fs, by simpa using h1, ?_⟩
        rwa [show page + 1 + n = page + (n + 1) by omega] at h2

/-- C6: with N full pages of 100 rows and a final page of K rows
(1 ≤ K ≤ 100) whose rows all decode, `fetch_pull_request_files` succeeds
with exactly `100*N + K` files, the per-page decodes in request order
(page order, row order within each page, the result being their
concatenation). -/
theorem c6_pagination_yields_all_rows (repo_full_name owner repoName : String)
    (pr_number : Int) (fullPages : List (List JsonValue)) (lastPage : List JsonValue)
    (hrepo : parse_repo_full_name repo_full_name = .ok (owner, repoName))
    (hpr : 0 < pr_number)
    (hfull : ∀ pg ∈ fullPages, pg.length = perPageLiteral)
    (hK1 : 1 ≤ lastPage.length) (hK2 : lastPage.length ≤ perPageLiteral)
    (hdec : ∀ i pg, (fullPages ++ [lastPage]).get? i = some pg →
      ∃ fs, decodeRowsPage (filesPageEndpoint
        (filesBaseEndpoint owner repoName pr_number) (1 + i)) pg = .ok fs) :
    ∃ (files : List PullRequestFile) (decodedPages : List (List PullRequestFile)),
      fetch_pull_request_files repo_full_name pr_number (fullPages ++ [lastPage])
        = .ok files ∧
      files.length = perPageLiteral * fullPages.length + lastPage.length ∧
      decodedPages.length = fullPages.length + 1 ∧
      (∀ i pg, (fullPages ++ [lastPage]).get? i = some pg →
        ∃ fs, decodedPages.get? i = some fs ∧
          decodeRowsPage (filesPageEndpoint (filesBaseEndpoint owner repoName pr_number)
            (1 + i)) pg = .ok fs) ∧
      files = decodedPages.flatten := by
  have hval : validate_pr_number pr_number = .ok pr_number := by
    unfold validate_pr_number
    rw [if_neg (by omega)]
  have hmain : fetch_pull_request_files repo_full_name pr_number (fullPages ++ [lastPage])
      = fetchFilesPages (filesBaseEndpoint owner repoName pr_number) 1
          (fullPages ++ [lastPage]) := by
    unfold fetch_pull_request_files
    rw [hrepo, hval]
    simp [Bind.bind, Except.bind]
  obtain ⟨files, decoded, h1, h2, h3, h4, h5⟩ :=
    fetchFilesPages_spec (filesBaseEndpoint owner repoName pr_number) fullPages lastPage 1
      hfull hK1 hK2 hdec
  exact ⟨files, decoded, by rw [hmain, h1], h2, h3, h4, h5⟩

/-- Witness for C6: a single final page with one well-formed row yields
exactly one file. -/
theorem c6_pagination_yields_all_rows_witness :
    ∃ (files : List PullRequestFile) (decodedPages : List (List PullRequestFile)),
      fetch_pull_request_files c6Repo 7 ([] ++ [[c6SampleRow]]) = .ok files ∧
      files.length = perPageLiteral * ([] : List (List JsonValue)).length
        + [c6SampleRow].length ∧
      decodedPages.length = ([] : List (List JsonValue)).length + 1 ∧
      (∀ i pg, (([] : List (List JsonValue)) ++ [[c6SampleRow]]).get? i = some pg →
        ∃ fs, decodedPages.get? i = some fs ∧
          decodeRowsPage (filesPageEndpoint (filesBaseEndpoint c6Owner c6RepoName 7)
            (1 + i)) pg = .ok fs) ∧
      files = decodedPages.flatten := by
  refine c6_pagination_yields_all_rows c6Repo c6Owner c6RepoName 7 [] [c6SampleRow]
    ?_ (by omega) (by simp) (by decide) (by decide) ?_
  · simp [parse_repo_full_name, pyStrip, isPyStripSpace, splitAtFirst, c6Repo,
      c6Owner, c6RepoName]
  · intro i pg hp
    cases i with
    | zero =>
      simp at hp
      subst hp
      refine ⟨[c6DecodedFile], ?_⟩
      simp [decodeRowsPage, ensureObjRows, decodeRowsList, decodePullRequestFileRow,
        _require_str, _require_int, jsonGet, filenameKey, statusKey, patchKey,
        previousFilenameKey, additionsKey, deletionsKey, changesKey, c6SampleRow,
        c6DecodedFile, Bind.bind, Except.bind, Pure.pure, Except.pure, Except.map]
    | succ n => simp at hp


/-! ## Claim C5: diff range extractor -/

theorem chain'_snoc_of_forall {R : ChangedRange → ChangedRange → Prop}
    {l : List ChangedRange} {y : ChangedRange} (h : List.Chain' R l)
    (hy : ∀ x ∈ l, R x y) : List.Chain' R (l ++ [y]) := by
  rw [List.chain'_append]
  refine ⟨h, List.chain'_singleton y, ?_⟩
  intro x hx z hz
  simp at hz
  subst hz
  exact hy x (List.mem_of_mem_getLast? hx)

theorem flushOpenRange_open_range (st : DiffScanState) :
    (flushOpenRange st).open_range = none := by
  unfold flushOpenRange
  cases ho : st.open_range with
  | none => exact ho
  | some se => rfl

theorem flushOpenRange_head_line (st : DiffScanState) :
    (flushOpenRange st).head_line = st.head_line := by
  unfold flushOpenRange
  cases st.open_range <;> rfl

theorem flushOpenRange_mem (st : DiffScanState) (r : ChangedRange)
    (hr : r ∈ (flushOpenRange st).ranges) :
    r ∈ st.ranges ∨ ∃ s e, st.open_range = some (s, e) ∧ r = ⟨s, e⟩ := by
  unfold flushOpenRange at hr
  cases ho : st.open_range with
  | none =>
    rw [ho] at hr
    exact Or.inl hr
  | some se =>
    rw [ho] at hr
    rcases List.mem_append.mp hr with hm | hm
    · exact Or.inl hm
    · exact Or.inr ⟨se.1, se.2, rfl, List.mem_singleton.mp hm⟩

theorem scanWF_flush {st : DiffScanState} (h : scanWF st) : scanWF (flushOpenRange st) := by
  refine ⟨?_, ?_⟩
  · intro r hr
    rcases flushOpenRange_mem st r hr with hm | ⟨s, e, ho, hre⟩
    · exact h.1 r hm
    · rw [hre]
      exact (h.2 s e ho).1
  · intro s e he
    rw [flushOpenRange_open_range] at he
    cases he

/-- `scanWF` does not constrain `head_line` or `in_hunk` when no range is
open, so any state agreeing with a flushed state elsewhere satisfies it. -/
theorem scanWF_reshape {st' : DiffScanState} (st : DiffScanState) (h : scanWF st)
    (hr : st'.ranges = (flushOpenRange st).ranges)
    (ho : st'.open_range = none) : scanWF st' := by
  refine ⟨?_, ?_⟩
  · rw [hr]
    exact (scanWF_flush h).1
  · intro s e he
    rw [ho] at he
    cases he

theorem scanOrdered_flush_ranges {st : DiffScanState} (h : scanOrdered st) :
    rangesAscending (flushOpenRange st).ranges := by
  unfold flushOpenRange
  cases ho : st.open_range with
  | none => exact h.1
  | some se =>
    exact chain'_snoc_of_forall h.1
      (fun x hx => h.2.1 se.1 se.2 (by rw [ho]) x hx)

theorem scanOrdered_flush_bound {st : DiffScanState} (hwf : scanWF st)
    (h : scanOrdered st) :
    ∀ r ∈ (flushOpenRange st).ranges, r.line_end < st.head_line := by
  intro r hr
  rcases flushOpenRange_mem st r hr with hm | ⟨s, e, ho, hre⟩
  · cases hoo : st.open_range with
    | none => exact h.2.2 hoo r hm
    | some se =>
      have h1 := h.2.1 se.1 se.2 (by rw [hoo]) r hm
      have h2 := hwf.2 se.1 se.2 (by rw [hoo])
      omega
  · obtain ⟨hse, hhl⟩ := hwf.2 s e ho
    rw [hre]
    show e < st.head_line
    omega

/-- A state whose ranges come from flushing and whose counter does not
decrease stays ordered. -/
theorem scanOrdered_reshape {st' : DiffScanState} (st : DiffScanState)
    (hwf : scanWF st) (h : scanOrdered st)
    (hr : st'.ranges = (flushOpenRange st).ranges)
    (ho : st'.open_range = none)
    (hh : st.head_line ≤ st'.head_line) : scanOrdered st' := by
  refine ⟨?_, ?_, ?_⟩
  · rw [hr]
    exact scanOrdered_flush_ranges h
  · intro s e he
    rw [ho] at he
    cases he
  · intro _ r hrr
    rw [hr] at hrr
    have := scanOrdered_flush_bound hwf h r hrr
    omega

/-- A hunk-header state: flush, any counter beyond every produced line. -/
theorem scanOrdered_header {st' : DiffScanState} (st : DiffScanState)
    (h : scanOrdered st)
    (hr : st'.ranges = (flushOpenRange st).ranges)
    (ho : st'.open_range = none)
    (hfr : headerFresh st st'.head_line = true) : scanOrdered st' := by
  unfold headerFresh at hfr
  rw [Bool.and_eq_true] at hfr
  refine ⟨?_, ?_, ?_⟩
  · rw [hr]
    exact scanOrdered_flush_ranges h
  · intro s e he
    rw [ho] at he
    cases he
  · intro _ r hrr
    rw [hr] at hrr
    rcases flushOpenRange_mem st r hrr with hm | ⟨s, e, hoo, hre⟩
    · exact of_decide_eq_true (List.all_eq_true.mp hfr.1 r hm)
    · rw [hre]
      show e < st'.head_line
      rw [hoo] at hfr
      exact of_decide_eq_true hfr.2

theorem scanWF_step (st : DiffScanState) (line : List Char) (h : scanWF st) :
    scanWF (diffScanStep st line) := by
  unfold diffScanStep
  split
  · exact scanWF_reshape st h rfl (flushOpenRange_open_range st)
  · split
    · exact h
    · split
      · exact scanWF_flush h
      · -- added line
        refine ⟨h.1, ?_⟩
        intro s e he
        have he' : some (match st.open_range with
            | none => (st.head_line, st.head_line)
            | some (s, _) => (s, st.head_line)) = some (s, e) := he
        cases ho : st.open_range with
        | none =>
          rw [ho] at he'
          simp only [Option.some.injEq, Prod.mk.injEq] at he'
          obtain ⟨hs, hee⟩ := he'
          constructor
          · omega
          · show st.head_line + 1 = e + 1
            omega
        | some se =>
          obtain ⟨s0, e0⟩ := se
          rw [ho] at he'
          simp only [Option.some.injEq, Prod.mk.injEq] at he'
          obtain ⟨hs, hee⟩ := he'
          obtain ⟨hle, hhl⟩ := h.2 s0 e0 ho
          constructor
          · omega
          · show st.head_line + 1 = e + 1
            omega
      · exact scanWF_reshape st h rfl (flushOpenRange_open_range st)
      · exact scanWF_flush h
      · exact scanWF_flush h
      · exact h
      · exact scanWF_flush h

theorem scanOrdered_step (st : DiffScanState) (line : List Char)
    (hwf : scanWF st) (h : scanOrdered st)
    (hfresh : ∀ hd, parseHunkHeader line = some hd → headerFresh st hd = true) :
    scanOrdered (diffScanStep st line) := by
  unfold diffScanStep
  split
  · rename_i hd hph
    exact scanOrdered_header st h rfl (flushOpenRange_open_range st) (hfresh hd hph)
  · split
    · exact h
    · split
      · exact scanOrdered_reshape st hwf h rfl (flushOpenRange_open_range st)
          (le_of_eq (flushOpenRange_head_line st).symm)
      · -- added line
        refine ⟨h.1, ?_, ?_⟩
        · intro s e he
          have he' : some (match st.open_range with
              | none => (st.head_line, st.head_line)
              | some (s, _) => (s, st.head_line)) = some (s, e) := he
          cases ho : st.open_range with
          | none =>
            rw [ho] at he'
            simp only [Option.some.injEq, Prod.mk.injEq] at he'
            obtain ⟨hs, hee⟩ := he'
            intro r hrr
            have := h.2.2 ho r hrr
            omega
          | some se =>
            obtain ⟨s0, e0⟩ := se
            rw [ho] at he'
            simp only [Option.some.injEq, Prod.mk.injEq] at he'
            obtain ⟨hs, hee⟩ := he'
            intro r hrr
            have := h.2.1 s0 e0 ho r hrr
            omega
        · intro habs
          have habs' : (some (match st.open_range with
              | none => (st.head_line, st.head_line)
              | some (s, _) => (s, st.head_line)) : Option (Nat × Nat)) = none := habs
          cases habs'
      · exact scanOrdered_reshape st hwf h rfl (flushOpenRange_open_range st)
          (by
            show st.head_line ≤ (flushOpenRange st).head_line + 1
            rw [flushOpenRange_head_line]
            omega)
      · exact scanOrdered_reshape st hwf h rfl (flushOpenRange_open_range st)
          (le_of_eq (flushOpenRange_head_line st).symm)
      · exact scanOrdered_reshape st hwf h rfl (flushOpenRange_open_range st)
          (le_of_eq (flushOpenRange_head_line st).symm)
      · exact h
      · exact scanOrdered_reshape st hwf h rfl (flushOpenRange_open_range st)
          (le_of_eq (flushOpenRange_head_line st).symm)

theorem scanWF_foldl (lines : List (List Char)) :
    ∀ st : DiffScanState, scanWF st → scanWF (lines.foldl diffScanStep st) := by
  induction lines with
  | nil => intro st h; exact h
  | cons l ls ih =>
    intro st h
    exact ih (diffScanStep st l) (scanWF_step st l h)

theorem hunkMono_fst (lines : List (List Char)) :
    ∀ (st : DiffScanState) (b : Bool),
      (lines.foldl hunkMonoStep (st, b)).1 = lines.foldl diffScanStep st := by
  induction lines with
  | nil => intro st b; rfl
  | cons l ls ih =>
    intro st b
    show (ls.foldl hunkMonoStep (hunkMonoStep (st, b) l)).1 = _
    have hstep : hunkMonoStep (st, b) l
        = (diffScanStep st l, (hunkMonoStep (st, b) l).2) := by
      unfold hunkMonoStep
      cases parseHunkHeader l <;> rfl
    rw [hstep]
    exact ih (diffScanStep st l) _

theorem hunkMono_false (lines : List (List Char)) :
    ∀ st : DiffScanState, (lines.foldl hunkMonoStep (st, false)).2 = false := by
  induction lines with
  | nil => intro st; rfl
  | cons l ls ih =>
    intro st
    show (ls.foldl hunkMonoStep (hunkMonoStep (st, false) l)).2 = false
    have hstep : hunkMonoStep (st, false) l = (diffScanStep st l, false) := by
      unfold hunkMonoStep
      cases parseHunkHeader l <;> simp
    rw [hstep]
    exact ih (diffScanStep st l)

theorem scanOrdered_foldl (lines : List (List Char)) :
    ∀ st : DiffScanState, scanWF st → scanOrdered st →
      (lines.foldl hunkMonoStep (st, true)).2 = true →
      scanOrdered (lines.foldl diffScanStep st) := by
  induction lines with
  | nil => intro st _ h _; exact h
  | cons l ls ih =>
    intro st hwf h hmono
    replace hmono : (ls.foldl hunkMonoStep (hunkMonoStep (st, true) l)).2 = true := hmono
    cases hph : parseHunkHeader l with
    | some hd =>
      have hstep : hunkMonoStep (st, true) l = (diffScanStep st l, headerFresh st hd) := by
        unfold hunkMonoStep
        rw [hph]
        simp
      rw [hstep] at hmono
      cases hfr : headerFresh st hd with
      | false =>
        rw [hfr] at hmono
        rw [hunkMono_false] at hmono
        cases hmono
      | true =>
        rw [hfr] at hmono
        refine ih (diffScanStep st l) (scanWF_step st l hwf)
          (scanOrdered_step st l hwf h ?_) hmono
        intro hd' hph'
        rw [hph] at hph'
        injection hph' with hph'
        rw [← hph']
        exact hfr
    | none =>
      have hstep : hunkMonoStep (st, true) l = (diffScanStep st l, true) := by
        unfold hunkMonoStep
        rw [hph]
      rw [hstep] at hmono
      refine ih (diffScanStep st l) (scanWF_step st l hwf)
        (scanOrdered_step st l hwf h ?_) hmono
      intro hd' hph'
      rw [hph] at hph'
      cases hph'

theorem scanWF_init : scanWF diffScanInit := by
  constructor
  · intro r hr
    cases hr
  · intro s e he
    cases he

theorem scanOrdered_init : scanOrdered diffScanInit := by
  refine ⟨List.chain'_nil, ?_, ?_⟩
  · intro s e he
    cases he
  · intro _ r hr
    cases hr

/-- C5 (amended): for every patch text each extracted range satisfies
`line_start ≤ line_end`; and whenever the patch's hunk headers are
monotone (each header's head start exceeds every line already produced,
as in well-formed diffs with ascending hunks) the ranges are ascending
and non-overlapping.  Concretely, the one-hunk replacement patch yields
the single range (5,6), and an added run interrupted by a context line
splits into the ascending ranges (1,1), (3,3). -/
theorem c5_parser_range_properties (patch : String) :
    (∀ r ∈ parse_head_changed_ranges_from_patch patch, r.line_start ≤ r.line_end) ∧
    (hunkHeadersMonotone patch = true →
      rangesAscending (parse_head_changed_ranges_from_patch patch)) ∧
    parse_head_changed_ranges_from_patch specExamplePatch
      = [{ line_start := 5, line_end := 6 }] ∧
    parse_head_changed_ranges_from_patch splitExamplePatch
      = [{ line_start := 1, line_end := 1 }, { line_start := 3, line_end := 3 }] := by
  have hwf : scanWF ((pySplitlines patch.data).foldl diffScanStep diffScanInit) :=
    scanWF_foldl (pySplitlines patch.data) diffScanInit scanWF_init
  refine ⟨?_, ?_, by decide, by decide⟩
  · intro r hr
    exact (scanWF_flush hwf).1 r hr
  · intro hmono
    have hord : scanOrdered ((pySplitlines patch.data).foldl diffScanStep diffScanInit) :=
      scanOrdered_foldl (pySplitlines patch.data) diffScanInit scanWF_init
        scanOrdered_init hmono
    exact scanOrdered_flush_ranges hord

/-- Witness for C5: the §8 example patch has monotone hunk headers and its
extracted ranges are ascending. -/
theorem c5_parser_range_properties_witness :
    hunkHeadersMonotone specExamplePatch = true ∧
    rangesAscending (parse_head_changed_ranges_from_patch specExamplePatch) :=
  ⟨by decide, (c5_parser_range_properties specExamplePatch).2.1 (by decide)⟩

/-- C5 counterexample: a patch whose second hunk header jumps backwards
produces the ranges (10,10), (1,1), which are not ascending — so the
claim's unconditional "ascending and non-overlapping for every patch
text" is false on the code. -/
theorem c5_parser_ranges_counterexample :
    parse_head_changed_ranges_from_patch badHunkPatch
      = [{ line_start := 10, line_end := 10 }, { line_start := 1, line_end := 1 }] ∧
    ¬ rangesAscending (parse_head_changed_ranges_from_patch badHunkPatch) := by
  have hc : parse_head_changed_ranges_from_patch badHunkPatch
      = [{ line_start := 10, line_end := 10 }, { line_start := 1, line_end := 1 }] := by
    decide
  refine ⟨hc, ?_⟩
  intro hasc
  unfold rangesAscending at hasc
  rw [hc] at hasc
  rw [List.chain'_cons] at hasc
  exact absurd hasc.1 (by decide)


end GithubClient
